import Mathlib

/-!
Shallow embedding of the paging core of `src/src/proyecto_memoria.py`
(class `SimuladorOS`, class `PCB`, class `TLB`), together with theorems
settling the specification claims about it.

Conventions of the embedding:
* Python dicts used as records become Lean structures.
* `self.ram` / `self.swap` are lists of `Option` cells (a `None` cell is an
  empty frame / slot); deques become lists with the head at the front
  (`popleft` = take the head, `append` = append at the tail).
* The per-process page table (a Python dict with keys `0 .. paginas-1`)
  becomes a list of `PTE` of length `paginas`; `dict.get` becomes `l[i]?`
  and a field assignment becomes `listModify`.
* Python object aliasing of PCBs (queues hold references, operations
  mutate through them) is modelled by keeping PCBs inside the state and
  updating the first PCB with the given pid in the same search order as
  `find_pcb_by_pid` (`proceso_actual`, then `cola_listos`,
  `cola_bloqueados`, `procesos_terminados`).
* The only runtime error the core can raise is the `ZeroDivisionError` of
  `select_victim_frame` under CLOCK when `num_marcos_ram = 0`
  (`self.clock_pointer % n` with `n = 0`); operations that can reach it
  return `Except SimState _` whose `error` carries the state at the point
  the exception is raised.
* `random.random()` / `random.randint` draws in `ejecutar_ciclo` and
  `crear_proceso_aleatorio` are determinized into an explicit oracle
  argument.
* Log lines become structured `LogEvent` values paired with the tick at
  which they were emitted (the text formatting is irrelevant to the
  claims).
-/

namespace MemSim

/-- A resident page descriptor: the dict stored in `self.ram[frame]`. -/
structure FrameContent where
  pid : Nat
  page : Nat
  loaded_time : Nat
  last_access : Nat
  referenced : Bool
  deriving DecidableEq

/-- A swapped page descriptor: the dict stored in `self.swap[slot]`. -/
structure SwapContent where
  pid : Nat
  page : Nat
  stored_time : Nat
  deriving DecidableEq

/-- One page-table entry of a process (`pcb.tabla_paginas[i]`). -/
structure PTE where
  present : Bool
  frame : Option Nat
  swap_slot : Option Nat
  last_access : Nat
  deriving DecidableEq

/-- The initial page-table entry built by `PCB.__init__`. -/
def initPTE : PTE := ⟨false, none, none, 0⟩

/-- The process control block (class `PCB`).  `instrucciones_restantes` is
an `Int` because the Python counter can go below zero. -/
structure PCB where
  pid : Nat
  nombre : String
  tamano_kb : Nat
  prioridad : Nat
  instrucciones_totales : Nat
  instrucciones_restantes : Int
  estado : String
  paginas : Nat
  tabla_paginas : List PTE
  motivo_terminacion : String
  deriving DecidableEq

/-- Structured counterpart of the strings appended by `self.log`. -/
inductive LogEvent where
  | procesoCreado (pid : Nat)
  | paginaDirectaSwap (pid pagina slot : Nat)
  | espacioInsuficiente (pid pagina : Nat)
  | cargadaPagina (pid pagina frame : Nat)
  | swapLleno
  | swapOutEv (pid page slot frame : Nat)
  | accesoInvalido (pid page : Nat)
  | falloPagina (pid page : Nat)
  | noMarcoSwapIn
  | swapInEv (pid page slot frame : Nat)
  | noMarcoNueva
  | despachando (pid : Nat)
  | procesoTerminado (pid : Nat) (motivo : String)
  | suspendido (pid : Nat)
  | reanudado (pid : Nat)
  | errNoEncontrado
  deriving DecidableEq

/-- The whole simulator state (the fields of `SimuladorOS.__init__`).
`arrival_prob` and the random bounds are not carried: the random draws
they bound are determinized into oracle arguments. -/
structure SimState where
  ram_kb : Nat
  swap_kb : Nat
  page_kb : Nat
  replacement_algo : String
  tlb_enabled : Bool
  tlb_size : Nat
  num_marcos_ram : Nat
  num_marcos_swap : Nat
  ram : List (Option FrameContent)
  free_frames : List Nat
  swap : List (Option SwapContent)
  free_swap_slots : List Nat
  fifo_queue : List Nat
  clock_pointer : Nat
  cola_listos : List PCB
  cola_bloqueados : List PCB
  procesos_terminados : List PCB
  proceso_actual : Option PCB
  contador_pid : Nat
  tlb : List ((Nat × Nat) × Option Nat)
  total_accesos : Nat
  total_fallos : Nat
  swap_ins : Nat
  swap_outs : Nat
  ticks : Nat
  access_clock : Nat
  log_events : List (Nat × LogEvent)
  deriving DecidableEq

/-- `str.upper()` of the source, as a character-list map (extensionally
the library `String.toUpper`, but written so that it evaluates inside
the kernel). -/
def strUpper (s : String) : String := ⟨s.data.map Char.toUpper⟩

/-- `SimuladorOS.__init__` (replacement name uppercased as in the source). -/
def initSim (ram_kb swap_kb page_kb : Nat) (replacement_algo : String)
    (tlb_enabled : Bool) (tlb_size : Nat) : SimState :=
  { ram_kb := ram_kb
    swap_kb := swap_kb
    page_kb := page_kb
    replacement_algo := strUpper replacement_algo
    tlb_enabled := tlb_enabled
    tlb_size := tlb_size
    num_marcos_ram := ram_kb / page_kb
    num_marcos_swap := swap_kb / page_kb
    ram := List.replicate (ram_kb / page_kb) none
    free_frames := List.range (ram_kb / page_kb)
    swap := List.replicate (swap_kb / page_kb) none
    free_swap_slots := List.range (swap_kb / page_kb)
    fifo_queue := []
    clock_pointer := 0
    cola_listos := []
    cola_bloqueados := []
    procesos_terminados := []
    proceso_actual := none
    contador_pid := 1
    tlb := []
    total_accesos := 0
    total_fallos := 0
    swap_ins := 0
    swap_outs := 0
    ticks := 0
    access_clock := 0
    log_events := [] }

/-- `self.log(...)`: appends an event stamped with the current tick. -/
def SimState.pushLog (s : SimState) (e : LogEvent) : SimState :=
  { s with log_events := s.log_events ++ [(s.ticks, e)] }

/-- In-place update of one list cell (a Python `l[i][field] = v`
assignment); out-of-range indices leave the list unchanged. -/
def listModify (l : List α) (i : Nat) (f : α → α) : List α :=
  match l[i]? with
  | some a => l.set i (f a)
  | none => l

/-- Mutation of the dict in `self.ram[i]` guarded by its existence
(`if self.ram[i]: ...`). -/
def ramModify (ram : List (Option FrameContent)) (i : Nat)
    (f : FrameContent → FrameContent) : List (Option FrameContent) :=
  match ram.getD i none with
  | some c => ram.set i (some (f c))
  | none => ram

/-- `TLB.lookup`: on hit, the entry is promoted to the back (most recent)
and its stored value is returned; `none` on miss. -/
def tlbLookup (entries : List ((Nat × Nat) × Option Nat)) (pid page : Nat) :
    Option (Option Nat × List ((Nat × Nat) × Option Nat)) :=
  match entries.find? (fun e => e.1 == (pid, page)) with
  | some e => some (e.2, entries.eraseP (fun x => x.1 == (pid, page)) ++ [e])
  | none => none

/-- `TLB.add`: promote an existing key, else evict the oldest entry when
at capacity, then append the new entry at the back. -/
def tlbAdd (entries : List ((Nat × Nat) × Option Nat)) (size : Nat)
    (pid page : Nat) (frame : Option Nat) : List ((Nat × Nat) × Option Nat) :=
  if entries.any (fun e => e.1 == (pid, page)) then
    entries.eraseP (fun e => e.1 == (pid, page)) ++ [((pid, page), frame)]
  else if size ≤ entries.length then
    entries.drop 1 ++ [((pid, page), frame)]
  else
    entries ++ [((pid, page), frame)]

/-- `TLB.invalidate_pid`: drop every entry whose key has this pid. -/
def tlbInvalidatePid (entries : List ((Nat × Nat) × Option Nat)) (pid : Nat) :
    List ((Nat × Nat) × Option Nat) :=
  entries.filter (fun e => ¬ e.1.1 == pid)

/-- Search of `find_pcb_by_pid` restricted to the three process lists. -/
def findPcbQueues (s : SimState) (pid : Nat) : Option PCB :=
  match s.cola_listos.find? (fun p => p.pid == pid) with
  | some p => some p
  | none =>
    match s.cola_bloqueados.find? (fun p => p.pid == pid) with
    | some p => some p
    | none => s.procesos_terminados.find? (fun p => p.pid == pid)

/-- `SimuladorOS.find_pcb_by_pid`: `proceso_actual` first, then the
ready, waiting and terminated lists. -/
def findPcb (s : SimState) (pid : Nat) : Option PCB :=
  match s.proceso_actual with
  | some p => if p.pid = pid then some p else findPcbQueues s pid
  | none => findPcbQueues s pid

/-- Apply `f` to the first PCB with the given pid, reporting whether one
was found. -/
def updateFirst (pid : Nat) (f : PCB → PCB) : List PCB → List PCB × Bool
  | [] => ([], false)
  | p :: rest =>
    if p.pid = pid then (f p :: rest, true)
    else
      let r := updateFirst pid f rest
      (p :: r.1, r.2)

/-- Write-through of a mutation on a PCB object found in one of the three
process lists (search order of `find_pcb_by_pid`). -/
def updatePcbQueues (s : SimState) (pid : Nat) (f : PCB → PCB) : SimState :=
  match updateFirst pid f s.cola_listos with
  | (l, true) => { s with cola_listos := l }
  | (_, false) =>
    match updateFirst pid f s.cola_bloqueados with
    | (l, true) => { s with cola_bloqueados := l }
    | (_, false) =>
      match updateFirst pid f s.procesos_terminados with
      | (l, true) => { s with procesos_terminados := l }
      | (_, false) => s

/-- Write-through of a mutation on the PCB object with the given pid
(models Python aliasing: queues hold references to the mutated object). -/
def updatePcb (s : SimState) (pid : Nat) (f : PCB → PCB) : SimState :=
  match s.proceso_actual with
  | some p =>
    if p.pid = pid then { s with proceso_actual := some (f p) }
    else updatePcbQueues s pid f
  | none => updatePcbQueues s pid f

/-- Field assignment on one page-table entry of a PCB
(`pcb.tabla_paginas[i][...] = ...`). -/
def ptSet (p : PCB) (i : Nat) (f : PTE → PTE) : PCB :=
  { p with tabla_paginas := listModify p.tabla_paginas i f }

/-- `SimuladorOS.place_page_in_frame`. -/
def placePageInFrame (s : SimState) (pid pagina frame_index : Nat) : SimState :=
  let newCell : Option FrameContent := some ⟨pid, pagina, s.ticks, s.ticks, true⟩
  let s1 := { s with ram := s.ram.set frame_index newCell }
  let s2 := updatePcb s1 pid
    (fun p => ptSet p pagina (fun _ => ⟨true, some frame_index, none, s1.ticks⟩))
  let s3 :=
    if s2.replacement_algo = "FIFO" then
      { s2 with fifo_queue := s2.fifo_queue ++ [frame_index] }
    else s2
  s3.pushLog (.cargadaPagina pid pagina frame_index)

/-- `SimuladorOS.swap_out_frame` (the returned slot is discarded by every
caller, so only the state is returned). -/
def swapOutFrame (s : SimState) (frame_index : Nat) : SimState :=
  match s.ram.getD frame_index none with
  | none => s
  | some content =>
    match s.free_swap_slots with
    | [] => s.pushLog .swapLleno
    | slot :: restSlots =>
      let s1 := { s with free_swap_slots := restSlots }
      let stored : Option SwapContent := some ⟨content.pid, content.page, s1.ticks⟩
      let s2 := { s1 with swap := s1.swap.set slot stored }
      -- `victim_pcb = self.find_pcb_by_pid(pid); if victim_pcb: ...`
      -- (updatePcb is the identity when no PCB with this pid exists)
      let s3 := updatePcb s2 content.pid
        (fun p => ptSet p content.page (fun _ => ⟨false, none, some slot, s2.ticks⟩))
      let s4 := { s3 with ram := s3.ram.set frame_index none }
      let s5 := { s4 with fifo_queue := s4.fifo_queue.erase frame_index }
      let s6 := { s5 with free_frames := s5.free_frames ++ [frame_index] }
      let s7 := { s6 with swap_outs := s6.swap_outs + 1 }
      s7.pushLog (.swapOutEv content.pid content.page slot frame_index)

/-- The LRU scan of `select_victim_frame`: running minimum of
`last_access` over the occupied frames, first index winning ties
(the accumulator holds `(index, last_access)`). -/
def lruLoop : List (Option FrameContent) → Nat → Option (Nat × Nat) →
    Option (Nat × Nat)
  | [], _, acc => acc
  | none :: rest, i, acc => lruLoop rest (i + 1) acc
  | some f :: rest, i, acc =>
    match acc with
    | none => lruLoop rest (i + 1) (some (i, f.last_access))
    | some (oi, ot) =>
      if f.last_access < ot then lruLoop rest (i + 1) (some (i, f.last_access))
      else lruLoop rest (i + 1) (some (oi, ot))

/-- Victim chosen by the LRU branch of `select_victim_frame`. -/
def lruSelect (ram : List (Option FrameContent)) : Option Nat :=
  (lruLoop ram 0 none).map Prod.fst

/-- The CLOCK `while scans < n` sweep.  The fuel counts the remaining
allowed `scans` increments; the result is the new ram (referenced bits
cleared along the way), the new pointer, and the victim if one was
returned from inside the loop. -/
def clockLoop (ram : List (Option FrameContent)) (ptr n : Nat) :
    Nat → List (Option FrameContent) × Nat × Option Nat
  | 0 => (ram, ptr, none)
  | fuel + 1 =>
    let fr := ptr % n
    match ram.getD fr none with
    | none => (ram, (ptr + 1) % n, some fr)
    | some f =>
      if f.referenced = false then (ram, (fr + 1) % n, some fr)
      else
        clockLoop (ram.set fr (some { f with referenced := false }))
          ((ptr + 1) % n) n fuel

/-- `SimuladorOS.select_victim_frame`.  The `error` case is the
`ZeroDivisionError` of the CLOCK fallback (`self.clock_pointer % n` with
`n = 0`); the unknown-policy branch is the FIFO default of the source. -/
def selectVictimFrame (s : SimState) : Except SimState (Option Nat × SimState) :=
  if s.replacement_algo = "FIFO" then
    match s.fifo_queue with
    | [] => .ok (none, s)
    | f :: rest => .ok (some f, { s with fifo_queue := rest })
  else if s.replacement_algo = "LRU" then
    .ok (lruSelect s.ram, s)
  else if s.replacement_algo = "CLOCK" then
    let n := s.num_marcos_ram
    let r := clockLoop s.ram s.clock_pointer n n
    let s1 := { s with ram := r.1, clock_pointer := r.2.1 }
    match r.2.2 with
    | some fr => .ok (some fr, s1)
    | none =>
      if n = 0 then .error s1
      else
        let victim := s1.clock_pointer % n
        .ok (some victim, { s1 with clock_pointer := (victim + 1) % n })
  else
    match s.fifo_queue with
    | [] => .ok (none, s)
    | f :: rest => .ok (some f, { s with fifo_queue := rest })

/-- The body of the per-page loop of
`SimuladorOS.allocate_pages_for_process`. -/
def allocOnePage (s : SimState) (pid pagina : Nat) : Except SimState SimState :=
  match s.free_frames with
  | frame :: rest =>
    .ok (placePageInFrame { s with free_frames := rest } pid pagina frame)
  | [] =>
    match selectVictimFrame s with
    | .error e => .error e
    | .ok (none, s1) =>
      match s1.free_swap_slots with
      | slot :: restS =>
        let s2 := { s1 with free_swap_slots := restS }
        -- the three field writes leave `last_access` untouched
        let s3 := updatePcb s2 pid (fun p => ptSet p pagina
          (fun e => ⟨false, none, some slot, e.last_access⟩))
        let stored : Option SwapContent := some ⟨pid, pagina, s3.ticks⟩
        let s4 := { s3 with swap := s3.swap.set slot stored }
        let s5 := s4.pushLog (.paginaDirectaSwap pid pagina slot)
        .ok { s5 with swap_outs := s5.swap_outs + 1 }
      | [] => .ok (s1.pushLog (.espacioInsuficiente pid pagina))
    | .ok (some victim, s1) =>
      let s2 := swapOutFrame s1 victim
      .ok (placePageInFrame s2 pid pagina victim)

/-- The `for pagina in range(pcb.paginas)` loop of
`allocate_pages_for_process`, over an explicit page list. -/
def allocPagesAux (pid : Nat) : SimState → List Nat → Except SimState SimState
  | s, [] => .ok s
  | s, pg :: rest =>
    match allocOnePage s pid pg with
    | .error e => .error e
    | .ok s1 => allocPagesAux pid s1 rest

/-- `SimuladorOS.crear_proceso` (PCB construction, READY queueing, and
initial allocation of all pages). -/
def crearProceso (s : SimState) (nombre : String) (tam_kb prioridad instr : Nat) :
    Except SimState SimState :=
  let pid := s.contador_pid
  let paginas := (tam_kb + s.page_kb - 1) / s.page_kb
  let pcb : PCB :=
    { pid := pid
      nombre := nombre
      tamano_kb := tam_kb
      prioridad := prioridad
      instrucciones_totales := instr
      instrucciones_restantes := (instr : Int)
      estado := "LISTO"
      paginas := paginas
      tabla_paginas := List.replicate paginas initPTE
      motivo_terminacion := "" }
  let s1 := { s with contador_pid := s.contador_pid + 1 }
  let s2 := { s1 with cola_listos := s1.cola_listos ++ [pcb] }
  let s3 := s2.pushLog (.procesoCreado pid)
  allocPagesAux pid s3 (List.range paginas)

/-- Tail of the swap-in branch of `access_page` once a destination frame
is known: move the descriptor from the slot into the frame, free the
slot, bump the swap-in counter, update replacement metadata and the TLB. -/
def swapInContinue (s : SimState) (pid page_index slot frame : Nat) :
    Bool × SimState :=
  let newCell : Option FrameContent :=
    some ⟨pid, page_index, s.ticks, s.access_clock, true⟩
  let s1 := { s with ram := s.ram.set frame newCell }
  let s2 := updatePcb s1 pid
    (fun p => ptSet p page_index (fun _ => ⟨true, some frame, none, s1.access_clock⟩))
  let s3 := { s2 with swap := s2.swap.set slot none }
  let s4 := { s3 with free_swap_slots := s3.free_swap_slots ++ [slot] }
  let s5 := { s4 with swap_ins := s4.swap_ins + 1 }
  let s6 := s5.pushLog (.swapInEv pid page_index slot frame)
  let s7 :=
    if s6.replacement_algo = "FIFO" then
      { s6 with fifo_queue := s6.fifo_queue ++ [frame] }
    else s6
  let s8 :=
    if s7.tlb_enabled then
      { s7 with tlb := tlbAdd s7.tlb s7.tlb_size pid page_index (some frame) }
    else s7
  (true, s8)

/-- The page-table half of `access_page` (everything after a TLB miss:
`entry = pcb.tabla_paginas.get(page_index)` onwards). -/
def accessPageTable (s1 : SimState) (pid page_index : Nat) :
    Except SimState (Bool × SimState) :=
  match (findPcb s1 pid).bind (fun p => p.tabla_paginas[page_index]?) with
    | none => .ok (false, s1.pushLog (.accesoInvalido pid page_index))
    | some entry =>
      if entry.present then
        let s2 :=
          match entry.frame with
          | some fr =>
            let ram2 := ramModify s1.ram fr
              (fun c => { c with last_access := s1.access_clock, referenced := true })
            { s1 with ram := ram2 }
          | none => s1
        let s3 := updatePcb s2 pid
          (fun p => ptSet p page_index (fun e => { e with last_access := s2.access_clock }))
        let s4 :=
          if s3.tlb_enabled then
            { s3 with tlb := tlbAdd s3.tlb s3.tlb_size pid page_index entry.frame }
          else s3
        .ok (true, s4)
      else
        -- page fault
        let s2 := { s1 with total_fallos := s1.total_fallos + 1 }
        let s3 := s2.pushLog (.falloPagina pid page_index)
        match entry.swap_slot with
        | some slot =>
          -- bring the page in from swap
          match s3.free_frames with
          | fr :: rest =>
            .ok (swapInContinue { s3 with free_frames := rest }
              pid page_index slot fr)
          | [] =>
            match selectVictimFrame s3 with
            | .error e => .error e
            | .ok (none, s4) => .ok (false, s4.pushLog .noMarcoSwapIn)
            | .ok (some victim, s4) =>
              let s5 := swapOutFrame s4 victim
              -- `if self.free_frames: frame = popleft()` — on a failed
              -- eviction the queue is still empty and `frame` stays the
              -- victim index (which is then overwritten below)
              match s5.free_frames with
              | fr :: rest =>
                .ok (swapInContinue { s5 with free_frames := rest }
                  pid page_index slot fr)
              | [] => .ok (swapInContinue s5 pid page_index slot victim)
        | none =>
          -- never-loaded page: allocate a frame for it
          match s3.free_frames with
          | fr :: rest =>
            .ok (true, placePageInFrame { s3 with free_frames := rest }
              pid page_index fr)
          | [] =>
            match selectVictimFrame s3 with
            | .error e => .error e
            | .ok (none, s4) => .ok (false, s4.pushLog .noMarcoNueva)
            | .ok (some victim, s4) =>
              let s5 := swapOutFrame s4 victim
              .ok (true, placePageInFrame s5 pid page_index victim)

/-- `SimuladorOS.access_page`.  The boolean result is the Python return
value (`True` = hit / resolved fault, `False` = invalid page or
unresolved fault).  Advances the counters, probes the TLB, and falls
through to `accessPageTable` on a miss. -/
def accessPage (s : SimState) (pid page_index : Nat) :
    Except SimState (Bool × SimState) :=
  let s0 := { s with total_accesos := s.total_accesos + 1,
                     access_clock := s.access_clock + 1,
                     ticks := s.ticks + 1 }
  -- `if self.tlb: frame = self.tlb.lookup(...)` (lookup promotes on hit)
  let probe : Option Nat × SimState :=
    if s0.tlb_enabled then
      match tlbLookup s0.tlb pid page_index with
      | some (v, tlb1) => (v, { s0 with tlb := tlb1 })
      | none => (none, s0)
    else (none, s0)
  match probe with
  | (some frame, s1) =>
    -- TLB hit
    let ram2 := ramModify s1.ram frame
      (fun c => { c with last_access := s1.access_clock, referenced := true })
    let s2 := { s1 with ram := ram2 }
    let s3 := updatePcb s2 pid
      (fun p => ptSet p page_index (fun e => { e with last_access := s2.access_clock }))
    .ok (true, s3)
  | (none, s1) => accessPageTable s1 pid page_index

/-- The per-entry loop of `SimuladorOS.terminar_proceso`: release the
frame of every resident entry and the slot of every swapped entry. -/
def terminarRelease : SimState → List PTE → SimState
  | s, [] => s
  | s, e :: rest =>
    let s1 :=
      if e.present then
        match e.frame with
        | some fr =>
          if fr < s.num_marcos_ram ∧ (s.ram.getD fr none).isSome then
            { s with ram := s.ram.set fr none,
                     free_frames := s.free_frames ++ [fr],
                     fifo_queue := s.fifo_queue.erase fr }
          else s
        | none => s
      else s
    let s2 :=
      match e.swap_slot with
      | some sl =>
        if sl < s1.num_marcos_swap ∧ (s1.swap.getD sl none).isSome then
          { s1 with swap := s1.swap.set sl none,
                    free_swap_slots := s1.free_swap_slots ++ [sl] }
        else s1
      | none => s1
    terminarRelease s2 rest

/-- `SimuladorOS.terminar_proceso` (resource release, TLB invalidation,
and the move of the PCB to the terminated list).  The caller removes the
PCB from its source queue / the CPU, exactly as in the source. -/
def terminarProceso (s : SimState) (pcb : PCB) (motivo : String) : SimState :=
  let s1 := terminarRelease s pcb.tabla_paginas
  let s2 :=
    if s1.tlb_enabled then { s1 with tlb := tlbInvalidatePid s1.tlb pcb.pid }
    else s1
  let pcb1 := { pcb with estado := "TERMINADO", motivo_terminacion := motivo }
  let s3 := { s2 with procesos_terminados := s2.procesos_terminados ++ [pcb1] }
  s3.pushLog (.procesoTerminado pcb.pid motivo)

/-- `SimuladorOS.forzar_terminacion`. -/
def forzarTerminacion (s : SimState) (pid : Nat) : SimState :=
  match s.cola_listos.find? (fun p => p.pid == pid) with
  | some p =>
    terminarProceso
      { s with cola_listos := s.cola_listos.eraseP (fun q => q.pid == pid) }
      p "Forzada por Usuario"
  | none =>
    match s.cola_bloqueados.find? (fun p => p.pid == pid) with
    | some p =>
      terminarProceso
        { s with cola_bloqueados := s.cola_bloqueados.eraseP (fun q => q.pid == pid) }
        p "Forzada por Usuario"
    | none =>
      match s.proceso_actual with
      | some p =>
        if p.pid = pid then
          { (terminarProceso s p "Forzada por Usuario") with proceso_actual := none }
        else s.pushLog .errNoEncontrado
      | none => s.pushLog .errNoEncontrado

/-- The ready-queue search half of `suspender_proceso`. -/
def suspenderReady (s : SimState) (pid : Nat) : SimState :=
  match s.cola_listos.find? (fun p => p.pid == pid) with
  | some p =>
    let p1 := { p with estado := "ESPERANDO" }
    ({ s with cola_listos := s.cola_listos.eraseP (fun q => q.pid == pid),
              cola_bloqueados := s.cola_bloqueados ++ [p1] }).pushLog
      (.suspendido pid)
  | none => s.pushLog .errNoEncontrado

/-- `SimuladorOS.suspender_proceso`. -/
def suspenderProceso (s : SimState) (pid : Nat) : SimState :=
  match s.proceso_actual with
  | some p =>
    if p.pid = pid then
      let p1 := { p with estado := "ESPERANDO" }
      ({ s with proceso_actual := none,
                cola_bloqueados := s.cola_bloqueados ++ [p1] }).pushLog
        (.suspendido pid)
    else suspenderReady s pid
  | none => suspenderReady s pid

/-- `SimuladorOS.reanudar_proceso`. -/
def reanudarProceso (s : SimState) (pid : Nat) : SimState :=
  match s.cola_bloqueados.find? (fun p => p.pid == pid) with
  | some p =>
    let p1 := { p with estado := "LISTO" }
    ({ s with cola_bloqueados := s.cola_bloqueados.eraseP (fun q => q.pid == pid),
              cola_listos := s.cola_listos ++ [p1] }).pushLog (.reanudado pid)
  | none => s.pushLog .errNoEncontrado

/-- `SimuladorOS.planificar`. -/
def planificar (s : SimState) : SimState :=
  match s.proceso_actual, s.cola_listos with
  | none, p :: rest =>
    let p1 := { p with estado := "EJECUTANDO" }
    ({ s with proceso_actual := some p1, cola_listos := rest }).pushLog
      (.despachando p1.pid)
  | _, _ => s

/-- The random draws consumed by one `ejecutar_ciclo` call:
whether `random.random() < self.arrival_prob`, the parameters drawn by
`crear_proceso_aleatorio`, and the page of `random.randint(0, paginas-1)`.
The random process name `P<pid>_rand` is modelled as `"Prand"`. -/
structure RandOracle where
  arrival : Bool
  tam : Nat
  instr : Nat
  prio : Nat
  page_choice : Nat
  deriving DecidableEq

/-- The body of `ejecutar_ciclo` after the arrival step: dispatch if the
CPU is idle, then simulate one reference of the running process (or
terminate it if it has no pages), then consume one instruction. -/
def cicloRest (s1 : SimState) (o : RandOracle) : Except SimState SimState :=
  let s2 := if s1.proceso_actual.isNone then planificar s1 else s1
  match s2.proceso_actual with
  | none => .ok s2
  | some p =>
    if p.paginas = 0 then
      let s3 := terminarProceso s2 p "Sin páginas"
      .ok { s3 with proceso_actual := none }
    else
      match accessPage s2 p.pid o.page_choice with
      | .error e => .error e
      | .ok (_, s3) =>
        match s3.proceso_actual with
        | none => .ok s3
        | some p2 =>
          let p3 := { p2 with
            instrucciones_restantes := p2.instrucciones_restantes - 1 }
          let s4 := { s3 with proceso_actual := some p3 }
          if p3.instrucciones_restantes ≤ 0 then
            let s5 := terminarProceso s4 p3 "Finalización Normal"
            .ok { s5 with proceso_actual := none }
          else .ok s4

/-- `SimuladorOS.ejecutar_ciclo` with the random draws determinized. -/
def ejecutarCiclo (s : SimState) (o : RandOracle) : Except SimState SimState :=
  let s0 := { s with ticks := s.ticks + 1, access_clock := s.access_clock + 1 }
  let afterArrival : Except SimState SimState :=
    if o.arrival then crearProceso s0 "Prand" o.tam o.prio o.instr else .ok s0
  match afterArrival with
  | .error e => .error e
  | .ok s1 => cicloRest s1 o

/-- State carried by an `Except` result: the final state on normal
return, the state at the raise point when the exception escapes (the
menu catches it for manual process creation, so that state persists). -/
def exOut : Except SimState SimState → SimState
  | .ok s => s
  | .error s => s

/-- Like `exOut` for the result of `accessPage`. -/
def exOutA : Except SimState (Bool × SimState) → SimState
  | .ok r => r.2
  | .error s => s

/-- States reachable through the driver-visible operations (any
constructor parameters: the menu admits arbitrary inputs and the oracle
determinizes the random draws). -/
inductive Reachable : SimState → Prop where
  | init : ∀ ram_kb swap_kb page_kb algo tlb_enabled tlb_size,
      Reachable (initSim ram_kb swap_kb page_kb algo tlb_enabled tlb_size)
  | crear : ∀ s nombre tam prio instr, Reachable s →
      Reachable (exOut (crearProceso s nombre tam prio instr))
  | ciclo : ∀ s o, Reachable s → Reachable (exOut (ejecutarCiclo s o))
  | acc : ∀ s pid page, Reachable s → Reachable (exOutA (accessPage s pid page))
  | susp : ∀ s pid, Reachable s → Reachable (suspenderProceso s pid)
  | rean : ∀ s pid, Reachable s → Reachable (reanudarProceso s pid)
  | forz : ∀ s pid, Reachable s → Reachable (forzarTerminacion s pid)

/-- Whether an `Except`-returning operation finished without raising. -/
def exIsOk : Except SimState SimState → Bool
  | .ok _ => true
  | .error _ => false

/-- The Python return value of `access_page` (`none` when it raised). -/
def accReturn : Except SimState (Bool × SimState) → Option Bool
  | .ok r => some r.1
  | .error _ => none


/-- The pair of time counters advanced in lockstep by the source
(`self.ticks`, `self.access_clock`). -/
def clocks (s : SimState) : Nat × Nat := (s.ticks, s.access_clock)

/-- The occupancy-relevant part of a resident descriptor (everything but
the CLOCK `referenced` bit). -/
def frameShape (c : FrameContent) : Nat × Nat × Nat × Nat :=
  (c.pid, c.page, c.loaded_time, c.last_access)

/-- The occupancy-relevant part of the whole RAM array. -/
def ramShape (ram : List (Option FrameContent)) :
    List (Option (Nat × Nat × Nat × Nat)) :=
  ram.map (Option.map frameShape)

/-- No live or terminated PCB carries the given pid. -/
def PidAbsent (s : SimState) (pid : Nat) : Prop :=
  (∀ p ∈ s.cola_listos, p.pid ≠ pid) ∧
  (∀ p ∈ s.cola_bloqueados, p.pid ≠ pid) ∧
  (∀ p ∈ s.procesos_terminados, p.pid ≠ pid) ∧
  (∀ p ∈ s.proceso_actual.toList, p.pid ≠ pid)

/-! ### Concrete scenario used for claim C1

Configuration 256 KB RAM / 256 KB swap / 256 KB pages (1 frame, 1 swap
slot), FIFO.  Admitting a 768 KB process (3 pages) leaves page 0 swapped
in slot 0, frame 0 holding page 2, no free frame and no free swap slot.
Accessing page 0 is then an access to a swapped page with no free frame
and no free swap slot. -/

def c1base : SimState := initSim 256 256 256 "FIFO" false 4

def c1admitted : SimState := exOut (crearProceso c1base "P1" 768 1 10)

def c1result : Except SimState (Bool × SimState) := accessPage c1admitted 1 0

def c1after : SimState := exOutA c1result

/-! ### Concrete scenario used for claim C2

Configuration 256 KB RAM / 512 KB swap / 256 KB pages (1 frame, 2 swap
slots), FIFO, TLB enabled with 4 entries.  After P1's page 0 is accessed
(cached in the TLB) and P2's admission evicts it to swap, the TLB still
holds `(1, 0) → frame 0` although frame 0 now holds `(2, 0)`. -/

def c2s1 : SimState :=
  exOut (crearProceso (initSim 256 512 256 "FIFO" true 4) "P1" 256 1 5)

def c2s2 : SimState := exOutA (accessPage c2s1 1 0)

def c2s3 : SimState := exOut (crearProceso c2s2 "P2" 256 1 5)

def c2result : Except SimState (Bool × SimState) := accessPage c2s3 1 0

def c2after : SimState := exOutA c2result

/-! ### Concrete scenario used for claim C3

Configuration 128 KB RAM / 512 KB swap / 256 KB pages: `num_frames = 0`.
Under CLOCK, admitting any process with at least one page reaches the
`select_victim_frame` fallback `self.clock_pointer % n` with `n = 0`,
a `ZeroDivisionError`.  Under FIFO and LRU the page goes directly to a
swap slot as the claim states. -/

def c3clock : Except SimState SimState :=
  crearProceso (initSim 128 512 256 "CLOCK" false 4) "P1" 256 1 5

def c3fifo : Except SimState SimState :=
  crearProceso (initSim 128 512 256 "FIFO" false 4) "P1" 256 1 5

def c3lru : Except SimState SimState :=
  crearProceso (initSim 128 512 256 "LRU" false 4) "P1" 256 1 5

/-! ### Counterexample scenario for claim C4

Same single admission (a 512 KB process, two pages) on the same
configuration (1 frame, 1 swap slot) under an unrecognized policy name
`"RANDOM"` and under `"FIFO"`: FIFO evicts page 0 to swap and keeps
page 1 in RAM, while the unknown policy keeps page 0 in RAM and sends
page 1 directly to swap — different placements and page tables. -/

def c4unknown : SimState :=
  exOut (crearProceso (initSim 256 256 256 "RANDOM" false 4) "P1" 512 1 10)

def c4fifo : SimState :=
  exOut (crearProceso (initSim 256 256 256 "FIFO" false 4) "P1" 512 1 10)

/-- A state used to witness the amended claim C4 (occupied FIFO queue
under an unknown policy name). -/
def c4wit : SimState := { c4unknown with fifo_queue := [0] }

/-! ### Counterexample scenario for claim C5

A one-page process exists; page 7 is out of range for it. -/

def c5s1 : SimState :=
  exOut (crearProceso (initSim 512 512 256 "FIFO" false 4) "P1" 256 1 5)

def c5result : Except SimState (Bool × SimState) := accessPage c5s1 1 7

/-- The PCB of P1 in `c5s1` (page 0 resident in frame 0). -/
def c5pcb : PCB :=
  { pid := 1
    nombre := "P1"
    tamano_kb := 256
    prioridad := 1
    instrucciones_totales := 5
    instrucciones_restantes := 5
    estado := "LISTO"
    paginas := 1
    tabla_paginas := [⟨true, some 0, none, 0⟩]
    motivo_terminacion := "" }

/-! ### Counterexample scenario for claim C6

1 frame / 2 slots, FIFO.  P1 is admitted and resident; admitting P2
evicts P1's page to swap; force-terminating P2 then frees P2's frame but
not the slot now holding P1's page, so the free counts do not return to
their pre-admission values (the free-frame queue even ends with a
duplicated index because admission's eviction path already re-queued the
frame it reused). -/

def c6pre : SimState :=
  exOut (crearProceso (initSim 256 512 256 "FIFO" false 4) "P1" 256 1 9)

def c6admitted : SimState := exOut (crearProceso c6pre "P2" 256 1 9)

def c6terminated : SimState := forzarTerminacion c6admitted 2

/-- Fresh 2-frame simulator used to witness the amended claim C6. -/
def c6wit : SimState := initSim 512 512 256 "FIFO" false 4

/-! ### Scenario used to witness claims C7 and C8

A fresh LRU simulator with two resident pages (both with
`last_access = 0`): `select_victim_frame` must return frame 0. -/

def c7state : SimState :=
  exOut (crearProceso (initSim 512 512 256 "LRU" false 4) "P1" 512 1 5)

/-! ### Counterexample scenario for claim C8

A FIFO simulator with two resident pages: `select_victim_frame` pops the
head of the FIFO queue. -/

def c8state : SimState :=
  exOut (crearProceso (initSim 512 512 256 "FIFO" false 4) "P1" 512 1 5)

def c8fifoAfter : List Nat :=
  match selectVictimFrame c8state with
  | .ok r => r.2.fifo_queue
  | .error e => e.fifo_queue

/-! ### Counterexample scenario for claim C9

Admitting a 0 KB process (zero pages). -/

def c9s1 : SimState :=
  exOut (crearProceso (initSim 512 512 256 "FIFO" false 4) "Z" 0 1 5)

/-- Fresh simulator used to witness the amended claim C9. -/
def c9wit : SimState := initSim 512 512 256 "FIFO" false 4

/-- Oracle with no random arrival, used by the C9 witness. -/
def c9oracle : RandOracle := ⟨false, 0, 0, 0, 0⟩

/-! ## Theorems -/

/-- Claim C1 (code bug): in a state where the accessed page is swapped,
no free frame exists and no free swap slot exists, `access_page` does
NOT return an unresolved fault: it returns `True`, overwrites the victim
frame with the faulting page while the victim page's table entry still
marks it resident in that frame (page 2 below), and releases the
faulting page's own swap slot.  The claimed FAULT-UNRESOLVED result with
no mutation does not happen. -/
theorem C1_evidence :
    c1admitted.free_frames = [] ∧
    c1admitted.free_swap_slots = [] ∧
    (findPcb c1admitted 1).map (fun p => p.tabla_paginas.getD 0 initPTE) =
      some ⟨false, none, some 0, 0⟩ ∧
    (c1admitted.ram.getD 0 none).map (fun c => (c.pid, c.page)) = some (1, 2) ∧
    accReturn c1result = some true ∧
    (c1after.ram.getD 0 none).map (fun c => (c.pid, c.page)) = some (1, 0) ∧
    (findPcb c1after 1).map (fun p => ((p.tabla_paginas.getD 2 initPTE).present,
      (p.tabla_paginas.getD 2 initPTE).frame)) = some (true, some 0) ∧
    c1after.swap = [none] ∧
    c1after.free_swap_slots = [0] := by
  decide

/-- Claim C2 (code bug): `swap_out_frame` does not remove TLB entries for
the evicted frame.  After the eviction the TLB still maps `(1, 0)` to
frame 0 while frame 0 holds `(2, 0)` — the claimed invariant is violated
— and the next access to the evicted page is a spurious TLB hit: it
returns `True`, counts no page fault, leaves P1's page 0 marked swapped,
and touches the metadata of P2's resident frame. -/
theorem C2_evidence :
    c2s3.tlb = [((1, 0), some 0)] ∧
    (c2s3.ram.getD 0 none).map (fun c => (c.pid, c.page)) = some (2, 0) ∧
    (findPcb c2s3 1).map (fun p => (p.tabla_paginas.getD 0 initPTE).present) =
      some false ∧
    accReturn c2result = some true ∧
    c2after.total_fallos = c2s3.total_fallos ∧
    (findPcb c2after 1).map (fun p => ((p.tabla_paginas.getD 0 initPTE).present,
      (p.tabla_paginas.getD 0 initPTE).swap_slot)) = some (false, some 0) ∧
    (c2after.ram.getD 0 none).map (fun c => (c.pid, c.page, c.last_access)) =
      some (2, 0, 2) := by
  decide

/-- Claim C3 (code bug): with `page_kb > ram_kb` (zero frames) admission
under CLOCK raises (modulus by zero in the `select_victim_frame`
fallback) instead of placing the page in swap, so victim selection is
not total; under FIFO and LRU the same admission succeeds and places the
page directly into swap slot 0 as the claim describes. -/
theorem C3_evidence :
    exIsOk c3clock = false ∧
    exIsOk c3fifo = true ∧
    exIsOk c3lru = true ∧
    (exOut c3fifo).swap.getD 0 none = some ⟨1, 0, 0⟩ ∧
    (findPcb (exOut c3fifo) 1).map (fun p => p.tabla_paginas.getD 0 initPTE) =
      some ⟨false, none, some 0, 0⟩ ∧
    (exOut c3lru).swap.getD 0 none = some ⟨1, 0, 0⟩ := by
  decide

/-- Claim C4 counterexample: a simulator built with the unrecognized
policy name `"RANDOM"` does not behave identically to one built with
`"FIFO"` on the same operation sequence — one admission of a two-page
process already produces different swap contents and different RAM
contents. -/
theorem C4_counterexample :
    ¬ (c4unknown.swap = c4fifo.swap ∧ c4unknown.ram = c4fifo.ram) := by
  decide

/-- Claim C5 counterexample: accessing a page outside the page table
returns INVALID (`False`) but does mutate the metrics: the access
counter, tick counter and access clock are incremented before the range
check, so they are not unchanged as claimed. -/
theorem C5_counterexample :
    accReturn c5result = some false ∧
    ¬ ((exOutA c5result).total_accesos = c5s1.total_accesos ∧
       (exOutA c5result).ticks = c5s1.ticks ∧
       (exOutA c5result).access_clock = c5s1.access_clock) := by
  decide

/-- Claim C6 counterexample: admitting P2 into a state where P1 occupies
the only frame and then immediately terminating P2 does not restore the
free-frame and free-slot counts: frames go 0 → 2 (with a duplicated
index) and slots go 2 → 1, because P1's evicted page stays in swap. -/
theorem C6_counterexample :
    c6pre.free_frames.length = 0 ∧
    c6pre.free_swap_slots.length = 2 ∧
    ¬ (c6terminated.free_frames.length = c6pre.free_frames.length ∧
       c6terminated.free_swap_slots.length = c6pre.free_swap_slots.length) := by
  decide

/-- Claim C8 counterexample: under FIFO, `select_victim_frame` does
mutate engine state — it pops the selected frame from the FIFO queue
(`[0, 1]` becomes `[1]`), contradicting the claimed no-mutation
contract. -/
theorem C8_counterexample :
    c8state.fifo_queue = [0, 1] ∧ c8fifoAfter ≠ c8state.fifo_queue := by
  decide

/-- Claim C9 counterexample: directly after admission the zero-page
process is not in the terminated set — it sits in the READY queue in
state `LISTO` with an empty termination reason. -/
theorem C9_counterexample :
    c9s1.procesos_terminados = [] ∧
    c9s1.cola_listos.map (fun p => (p.pid, p.estado, p.paginas)) =
      [(1, "LISTO", 0)] := by
  decide

/-! ### Field-preservation helper lemmas -/

theorem updatePcb_ram (s : SimState) (pid : Nat) (f : PCB → PCB) :
    (updatePcb s pid f).ram = s.ram := by
  unfold updatePcb updatePcbQueues
  repeat' split
  all_goals rfl

theorem updatePcb_fifo (s : SimState) (pid : Nat) (f : PCB → PCB) :
    (updatePcb s pid f).fifo_queue = s.fifo_queue := by
  unfold updatePcb updatePcbQueues
  repeat' split
  all_goals rfl

theorem updatePcb_clocks (s : SimState) (pid : Nat) (f : PCB → PCB) :
    clocks (updatePcb s pid f) = clocks s := by
  unfold updatePcb updatePcbQueues
  repeat' split
  all_goals rfl

theorem pushLog_clocks (s : SimState) (e : LogEvent) :
    clocks (s.pushLog e) = clocks s := rfl

theorem pushLog_fifo (s : SimState) (e : LogEvent) :
    (s.pushLog e).fifo_queue = s.fifo_queue := rfl

theorem updatePcb_algo (s : SimState) (pid : Nat) (f : PCB → PCB) :
    (updatePcb s pid f).replacement_algo = s.replacement_algo := by
  unfold updatePcb updatePcbQueues
  repeat' split
  all_goals rfl

/-- Claim C4 (amended): an unrecognized replacement name selects victims
through exactly the FIFO branch (same choice, same effect on the FIFO
queue, RAM and CLOCK pointer as a FIFO-configured simulator in the same
state), but pages loaded under an unrecognized policy are never enqueued
into the FIFO queue (`place_page_in_frame` enqueues only when the policy
is literally `"FIFO"`), so whole-run behaviour does not degrade to
FIFO. -/
theorem C4_amended :
    (∀ s : SimState, s.replacement_algo ≠ "FIFO" → s.replacement_algo ≠ "LRU" →
      s.replacement_algo ≠ "CLOCK" →
      (selectVictimFrame s).map
          (fun r => (r.1, r.2.fifo_queue, r.2.ram, r.2.clock_pointer)) =
        (selectVictimFrame { s with replacement_algo := "FIFO" }).map
          (fun r => (r.1, r.2.fifo_queue, r.2.ram, r.2.clock_pointer))) ∧
    (∀ (s : SimState) (pid pagina frame : Nat), s.replacement_algo ≠ "FIFO" →
      (placePageInFrame s pid pagina frame).fifo_queue = s.fifo_queue) := by
  constructor
  · intro s h1 h2 h3
    simp only [selectVictimFrame, if_neg h1, if_neg h2, if_neg h3]
    cases hq : s.fifo_queue <;> simp [hq, Except.map]
  · intro s pid pagina frame h
    simp only [placePageInFrame, pushLog_fifo, updatePcb_algo, updatePcb_fifo]
    rw [if_neg h]
    simp [pushLog_fifo, updatePcb_fifo]

/-- Witness for the amended claim C4 at a concrete unknown-policy state
with a non-empty FIFO queue. -/
theorem C4_amended_witness :
    (selectVictimFrame c4wit).map
        (fun r => (r.1, r.2.fifo_queue, r.2.ram, r.2.clock_pointer)) =
      (selectVictimFrame { c4wit with replacement_algo := "FIFO" }).map
        (fun r => (r.1, r.2.fifo_queue, r.2.ram, r.2.clock_pointer)) ∧
    (placePageInFrame c4wit 9 0 0).fifo_queue = c4wit.fifo_queue :=
  ⟨C4_amended.1 c4wit (by decide) (by decide) (by decide),
   C4_amended.2 c4wit 9 0 0 (by decide)⟩

/-- Claim C5 (amended): accessing a page outside the process's page
table (with no TLB entry for it, which holds in every reachable state)
returns INVALID (`False`) and leaves frames, swap, page tables, the TLB
and the fault/swap counters unchanged, but the access counter, the tick
counter and the access clock each advance by one and an error event is
logged — they are not unchanged as the original claim states. -/
theorem findPcb_bump (s : SimState) (pid : Nat) (b1 b2 b3 : Nat) (tl : Bool) :
    findPcb { s with tlb_enabled := tl, total_accesos := b1,
                     access_clock := b2, ticks := b3 } pid = findPcb s pid := by
  unfold findPcb findPcbQueues
  rfl

theorem C5_amended (s : SimState) (pid page : Nat) (p : PCB)
    (hfind : findPcb s pid = some p)
    (hrange : p.tabla_paginas[page]? = none)
    (htlb : s.tlb_enabled = true → tlbLookup s.tlb pid page = none) :
    accessPage s pid page =
      .ok (false,
        { s with total_accesos := s.total_accesos + 1,
                 access_clock := s.access_clock + 1,
                 ticks := s.ticks + 1,
                 log_events := s.log_events ++
                   [(s.ticks + 1, .accesoInvalido pid page)] }) := by
  cases htl : s.tlb_enabled with
  | false =>
    simp only [accessPage, accessPageTable, htl, Bool.false_eq_true, if_false]
    rw [findPcb_bump, hfind]
    simp only [Option.some_bind, hrange, SimState.pushLog]
  | true =>
    have htlb1 := htlb htl
    simp only [accessPage, accessPageTable, htl, if_true, htlb1]
    rw [findPcb_bump, hfind]
    simp only [Option.some_bind, hrange, SimState.pushLog]

/-- Witness for the amended claim C5: the out-of-range access of the C5
counterexample state, with its full resulting state. -/
theorem C5_amended_witness :
    accessPage c5s1 1 7 =
      .ok (false,
        { c5s1 with total_accesos := c5s1.total_accesos + 1,
                    access_clock := c5s1.access_clock + 1,
                    ticks := c5s1.ticks + 1,
                    log_events := c5s1.log_events ++
                      [(c5s1.ticks + 1, .accesoInvalido 1 7)] }) :=
  C5_amended c5s1 1 7 c5pcb (by decide) (by decide) (by decide)


theorem listSet_same {α : Type _} (l : List α) :
    ∀ (i : Nat) (a : α), l[i]? = some a → l.set i a = l := by
  induction l with
  | nil => intro i a h; simp at h
  | cons x xs ih =>
    intro i a h
    cases i with
    | zero =>
      simp only [List.getElem?_cons_zero, Option.some.injEq] at h
      simp [h]
    | succ n =>
      simp only [List.getElem?_cons_succ] at h
      simp [List.set, ih n a h]

theorem ramShape_set_ref :
    ∀ (ram : List (Option FrameContent)) (i : Nat) (c : FrameContent) (b : Bool),
      ram.getD i none = some c →
      ramShape (ram.set i (some { c with referenced := b })) = ramShape ram := by
  intro ram
  induction ram with
  | nil => intro i c b h; simp [List.getD] at h
  | cons x xs ih =>
    intro i c b h
    cases i with
    | zero =>
      simp only [List.getD_cons_zero] at h
      simp [ramShape, h, frameShape]
    | succ n =>
      simp only [List.getD_cons_succ] at h
      simp only [List.set, ramShape, List.map_cons, List.map]
      have := ih n c b h
      simp only [ramShape] at this
      rw [this]

theorem clockLoop_shape :
    ∀ (fuel : Nat) (ram : List (Option FrameContent)) (ptr n : Nat),
      ramShape (clockLoop ram ptr n fuel).1 = ramShape ram := by
  intro fuel
  induction fuel with
  | zero => intro ram ptr n; rfl
  | succ m ih =>
    intro ram ptr n
    simp only [clockLoop]
    cases hc : ram.getD (ptr % n) none with
    | none => rfl
    | some f =>
      cases hr : f.referenced with
      | false => simp [hr]
      | true =>
        simp only [hr, Bool.true_eq_false, if_false]
        rw [ih]
        exact ramShape_set_ref ram (ptr % n) f false hc

/-- Claim C8 (amended): `select_victim_frame` never mutates the free
queues, the swap array, the process queues, the occupancy of the frames
(pid/page/load/access data) or the event log; under LRU it mutates
nothing at all.  But it is not mutation-free in general: under FIFO it
pops the selected frame from the FIFO queue, and under CLOCK it may
clear referenced bits and advance the pointer (under any policy other
than CLOCK the RAM array and the pointer are untouched). -/
theorem C8_amended (s : SimState) (r : Option Nat) (s1 : SimState)
    (h : selectVictimFrame s = .ok (r, s1)) :
    s1.free_frames = s.free_frames ∧
    s1.free_swap_slots = s.free_swap_slots ∧
    s1.swap = s.swap ∧
    s1.cola_listos = s.cola_listos ∧
    s1.cola_bloqueados = s.cola_bloqueados ∧
    s1.procesos_terminados = s.procesos_terminados ∧
    s1.proceso_actual = s.proceso_actual ∧
    ramShape s1.ram = ramShape s.ram ∧
    s1.log_events = s.log_events ∧
    (s.replacement_algo = "LRU" → s1 = s) ∧
    (s.replacement_algo ≠ "CLOCK" → s1.ram = s.ram ∧
      s1.clock_pointer = s.clock_pointer) := by
  unfold selectVictimFrame at h
  split at h
  case isTrue hF =>
    cases hq : s.fifo_queue with
    | nil =>
      rw [hq] at h
      simp only [Except.ok.injEq, Prod.mk.injEq] at h
      obtain ⟨hr, hs⟩ := h
      subst hs
      refine ⟨rfl, rfl, rfl, rfl, rfl, rfl, rfl, rfl, rfl, fun _ => rfl, fun _ => ⟨rfl, rfl⟩⟩
    | cons f rest =>
      rw [hq] at h
      simp only [Except.ok.injEq, Prod.mk.injEq] at h
      obtain ⟨hr, hs⟩ := h
      subst hs
      refine ⟨rfl, rfl, rfl, rfl, rfl, rfl, rfl, rfl, rfl, ?_, fun _ => ⟨rfl, rfl⟩⟩
      intro hL
      rw [hF] at hL
      simp at hL
  case isFalse hF =>
    split at h
    case isTrue hL =>
      simp only [Except.ok.injEq, Prod.mk.injEq] at h
      obtain ⟨hr, hs⟩ := h
      subst hs
      refine ⟨rfl, rfl, rfl, rfl, rfl, rfl, rfl, rfl, rfl, fun _ => rfl, fun _ => ⟨rfl, rfl⟩⟩
    case isFalse hL =>
      split at h
      case isTrue hC =>
        (try dsimp only at h)
        split at h
        case h_1 fr heq =>
          simp only [Except.ok.injEq, Prod.mk.injEq] at h
          obtain ⟨hr, hs⟩ := h
          subst hs
          refine ⟨rfl, rfl, rfl, rfl, rfl, rfl, rfl, ?_, rfl,
            fun hL2 => absurd hL2 hL, fun hnC => absurd hC hnC⟩
          exact clockLoop_shape s.num_marcos_ram s.ram s.clock_pointer s.num_marcos_ram
        case h_2 heq =>
          split at h
          case isTrue hn => simp at h
          case isFalse hn =>
            simp only [Except.ok.injEq, Prod.mk.injEq] at h
            obtain ⟨hr, hs⟩ := h
            subst hs
            refine ⟨rfl, rfl, rfl, rfl, rfl, rfl, rfl, ?_, rfl,
              fun hL2 => absurd hL2 hL, fun hnC => absurd hC hnC⟩
            exact clockLoop_shape s.num_marcos_ram s.ram s.clock_pointer s.num_marcos_ram
      case isFalse hC =>
        cases hq : s.fifo_queue with
        | nil =>
          rw [hq] at h
          simp only [Except.ok.injEq, Prod.mk.injEq] at h
          obtain ⟨hr, hs⟩ := h
          subst hs
          refine ⟨rfl, rfl, rfl, rfl, rfl, rfl, rfl, rfl, rfl, fun hL2 => absurd hL2 hL,
            fun _ => ⟨rfl, rfl⟩⟩
        | cons f rest =>
          rw [hq] at h
          simp only [Except.ok.injEq, Prod.mk.injEq] at h
          obtain ⟨hr, hs⟩ := h
          subst hs
          refine ⟨rfl, rfl, rfl, rfl, rfl, rfl, rfl, rfl, rfl, fun hL2 => absurd hL2 hL,
            fun _ => ⟨rfl, rfl⟩⟩

/-- Witness for the amended claim C8: at the concrete LRU state,
selection returns frame 0 and the state is unchanged. -/
theorem C8_amended_witness :
    selectVictimFrame c7state = .ok (some 0, c7state) ∧ c7state = c7state :=
  ⟨rfl, (C8_amended c7state (some 0) c7state rfl).2.2.2.2.2.2.2.2.2.1 rfl⟩


/-- Claim C9 (amended): admitting a zero-page process leaves it in the
READY queue in state `LISTO` (it is not terminated immediately); it is
terminated with reason `"Sin páginas"` ("no pages") only when a later
scheduling cycle dispatches it. -/
theorem C9_amended (s : SimState) (nombre : String) (prio instr : Nat)
    (o : RandOracle) (hpage : 1 ≤ s.page_kb) (hactual : s.proceso_actual = none)
    (hlistos : s.cola_listos = []) (harr : o.arrival = false) :
    ∃ s1, crearProceso s nombre 0 prio instr = .ok s1 ∧
      s1.procesos_terminados = s.procesos_terminados ∧
      s1.cola_listos.map (fun p => (p.pid, p.estado, p.paginas)) =
        [(s.contador_pid, "LISTO", 0)] ∧
      ∃ s2, ejecutarCiclo s1 o = .ok s2 ∧
        s2.proceso_actual = none ∧
        s2.procesos_terminados.map (fun p => (p.pid, p.estado, p.motivo_terminacion)) =
          s.procesos_terminados.map (fun p => (p.pid, p.estado, p.motivo_terminacion))
            ++ [(s.contador_pid, "TERMINADO", "Sin páginas")] := by
  have hpg : (0 + s.page_kb - 1) / s.page_kb = 0 := Nat.div_eq_of_lt (by omega)
  have hc : crearProceso s nombre 0 prio instr = .ok { s with
      contador_pid := s.contador_pid + 1,
      cola_listos := s.cola_listos ++
        [⟨s.contador_pid, nombre, 0, prio, instr, (instr : Int), "LISTO", 0, [], ""⟩],
      log_events := s.log_events ++ [(s.ticks, .procesoCreado s.contador_pid)] } := by
    simp only [crearProceso, hpg, List.range_zero, List.replicate, allocPagesAux,
      SimState.pushLog]
  rw [hc]
  refine ⟨_, rfl, rfl, ?_, ?_⟩
  · simp [hlistos]
  · cases htlbe : s.tlb_enabled with
    | false =>
      simp only [ejecutarCiclo, cicloRest, harr, Bool.false_eq_true, if_false,
        hactual, Option.isNone_none, if_true, planificar, hlistos,
        List.nil_append, terminarProceso, terminarRelease, htlbe,
        SimState.pushLog]
      refine ⟨_, rfl, rfl, ?_⟩
      simp
    | true =>
      simp only [ejecutarCiclo, cicloRest, harr, Bool.false_eq_true, if_false,
        hactual, Option.isNone_none, if_true, planificar, hlistos,
        List.nil_append, terminarProceso, terminarRelease, htlbe,
        SimState.pushLog]
      refine ⟨_, rfl, rfl, ?_⟩
      simp

/-- Witness for the amended claim C9 on a fresh simulator. -/
theorem C9_amended_witness :
    ∃ s1, crearProceso c9wit "Z" 0 1 5 = .ok s1 ∧
      s1.procesos_terminados = c9wit.procesos_terminados ∧
      s1.cola_listos.map (fun p => (p.pid, p.estado, p.paginas)) =
        [(c9wit.contador_pid, "LISTO", 0)] ∧
      ∃ s2, ejecutarCiclo s1 c9oracle = .ok s2 ∧
        s2.proceso_actual = none ∧
        s2.procesos_terminados.map (fun p => (p.pid, p.estado, p.motivo_terminacion)) =
          c9wit.procesos_terminados.map (fun p => (p.pid, p.estado, p.motivo_terminacion))
            ++ [(c9wit.contador_pid, "TERMINADO", "Sin páginas")] :=
  C9_amended c9wit "Z" 1 5 c9oracle (by decide) rfl rfl rfl


theorem lruLoop_some_spec (l : List (Option FrameContent)) :
    ∀ (i0 oi ot : Nat), oi < i0 →
    ∃ ri rt, lruLoop l i0 (some (oi, ot)) = some (ri, rt) ∧
      rt ≤ ot ∧
      (∀ k c, l.getD k none = some c → rt ≤ c.last_access) ∧
      ((ri = oi ∧ rt = ot) ∨
        (∃ k c, l.getD k none = some c ∧ ri = i0 + k ∧ rt = c.last_access ∧ rt < ot)) ∧
      (∀ k c, l.getD k none = some c → c.last_access = rt → ri ≤ i0 + k) ∧
      (rt = ot → ri = oi) := by
  induction l with
  | nil =>
    intro i0 oi ot hoi
    refine ⟨oi, ot, rfl, le_refl ot, ?_, Or.inl ⟨rfl, rfl⟩, ?_, fun _ => rfl⟩
    · intro k c hk; simp [List.getD] at hk
    · intro k c hk; simp [List.getD] at hk
  | cons x xs ih =>
    intro i0 oi ot hoi
    cases x with
    | none =>
      obtain ⟨ri, rt, heq, hle, hmin, hprov, hties, hacc⟩ :=
        ih (i0 + 1) oi ot (Nat.lt_succ_of_lt hoi)
      refine ⟨ri, rt, ?_, hle, ?_, ?_, ?_, hacc⟩
      · simpa [lruLoop] using heq
      · intro k c hk
        cases k with
        | zero => simp [List.getD_cons_zero] at hk
        | succ n => exact hmin n c (by simpa [List.getD_cons_succ] using hk)
      · rcases hprov with h | ⟨k, c, hk, hik, hrt, hlt⟩
        · exact Or.inl h
        · exact Or.inr ⟨k + 1, c, by simpa [List.getD_cons_succ] using hk,
            by omega, hrt, hlt⟩
      · intro k c hk hc
        cases k with
        | zero => simp [List.getD_cons_zero] at hk
        | succ n =>
          have := hties n c (by simpa [List.getD_cons_succ] using hk) hc
          omega
    | some f =>
      by_cases hlt : f.last_access < ot
      · obtain ⟨ri, rt, heq, hle, hmin, hprov, hties, hacc⟩ :=
          ih (i0 + 1) i0 f.last_access (Nat.lt_succ_self i0)
        refine ⟨ri, rt, ?_, le_of_lt (lt_of_le_of_lt hle hlt), ?_, ?_, ?_, ?_⟩
        · simpa [lruLoop, hlt] using heq
        · intro k c hk
          cases k with
          | zero =>
            simp only [List.getD_cons_zero, Option.some.injEq] at hk
            subst hk; exact hle
          | succ n => exact hmin n c (by simpa [List.getD_cons_succ] using hk)
        · rcases hprov with ⟨hri, hrt⟩ | ⟨k, c, hk, hik, hrt, hlt2⟩
          · exact Or.inr ⟨0, f, by simp [List.getD_cons_zero], by omega,
              hrt, by omega⟩
          · exact Or.inr ⟨k + 1, c, by simpa [List.getD_cons_succ] using hk,
              by omega, hrt, by omega⟩
        · intro k c hk hc
          cases k with
          | zero =>
            simp only [List.getD_cons_zero, Option.some.injEq] at hk
            subst hk
            have : ri = i0 := hacc (by omega)
            omega
          | succ n =>
            have := hties n c (by simpa [List.getD_cons_succ] using hk) hc
            omega
        · intro hrt; omega
      · obtain ⟨ri, rt, heq, hle, hmin, hprov, hties, hacc⟩ :=
          ih (i0 + 1) oi ot (Nat.lt_succ_of_lt hoi)
        refine ⟨ri, rt, ?_, hle, ?_, ?_, ?_, hacc⟩
        · simpa [lruLoop, hlt] using heq
        · intro k c hk
          cases k with
          | zero =>
            simp only [List.getD_cons_zero, Option.some.injEq] at hk
            subst hk; omega
          | succ n => exact hmin n c (by simpa [List.getD_cons_succ] using hk)
        · rcases hprov with h | ⟨k, c, hk, hik, hrt, hlt2⟩
          · exact Or.inl h
          · exact Or.inr ⟨k + 1, c, by simpa [List.getD_cons_succ] using hk,
              by omega, hrt, hlt2⟩
        · intro k c hk hc
          cases k with
          | zero =>
            simp only [List.getD_cons_zero, Option.some.injEq] at hk
            subst hk
            have : ri = oi := hacc (by omega)
            omega
          | succ n =>
            have := hties n c (by simpa [List.getD_cons_succ] using hk) hc
            omega

theorem lruLoop_none_spec (l : List (Option FrameContent)) :
    ∀ (i0 : Nat), (∃ k c, l.getD k none = some c) →
    ∃ ri rt, lruLoop l i0 none = some (ri, rt) ∧
      (∀ k c, l.getD k none = some c → rt ≤ c.last_access) ∧
      (∃ k c, l.getD k none = some c ∧ ri = i0 + k ∧ rt = c.last_access) ∧
      (∀ k c, l.getD k none = some c → c.last_access = rt → ri ≤ i0 + k) := by
  induction l with
  | nil =>
    intro i0 hocc
    obtain ⟨k, c, hk⟩ := hocc
    simp [List.getD] at hk
  | cons x xs ih =>
    intro i0 hocc
    cases x with
    | none =>
      have hocc2 : ∃ k c, xs.getD k none = some c := by
        obtain ⟨k, c, hk⟩ := hocc
        cases k with
        | zero => simp [List.getD_cons_zero] at hk
        | succ n => exact ⟨n, c, by simpa [List.getD_cons_succ] using hk⟩
      obtain ⟨ri, rt, heq, hmin, hprov, hties⟩ := ih (i0 + 1) hocc2
      refine ⟨ri, rt, ?_, ?_, ?_, ?_⟩
      · simpa [lruLoop] using heq
      · intro k c hk
        cases k with
        | zero => simp [List.getD_cons_zero] at hk
        | succ n => exact hmin n c (by simpa [List.getD_cons_succ] using hk)
      · obtain ⟨k, c, hk, hik, hrt⟩ := hprov
        exact ⟨k + 1, c, by simpa [List.getD_cons_succ] using hk, by omega, hrt⟩
      · intro k c hk hc
        cases k with
        | zero => simp [List.getD_cons_zero] at hk
        | succ n =>
          have := hties n c (by simpa [List.getD_cons_succ] using hk) hc
          omega
    | some f =>
      obtain ⟨ri, rt, heq, hle, hmin, hprov, hties, hacc⟩ :=
        lruLoop_some_spec xs (i0 + 1) i0 f.last_access (Nat.lt_succ_self i0)
      refine ⟨ri, rt, ?_, ?_, ?_, ?_⟩
      · simpa [lruLoop] using heq
      · intro k c hk
        cases k with
        | zero =>
          simp only [List.getD_cons_zero, Option.some.injEq] at hk
          subst hk; exact hle
        | succ n => exact hmin n c (by simpa [List.getD_cons_succ] using hk)
      · rcases hprov with ⟨hri, hrt⟩ | ⟨k, c, hk, hik, hrt, hlt2⟩
        · exact ⟨0, f, by simp [List.getD_cons_zero], by omega, hrt⟩
        · exact ⟨k + 1, c, by simpa [List.getD_cons_succ] using hk, by omega, hrt⟩
      · intro k c hk hc
        cases k with
        | zero =>
          simp only [List.getD_cons_zero, Option.some.injEq] at hk
          subst hk
          have : ri = i0 := hacc (by omega)
          omega
        | succ n =>
          have := hties n c (by simpa [List.getD_cons_succ] using hk) hc
          omega

/-- Claim C7: under the LRU policy, whenever at least one frame is
occupied, `select_victim_frame` returns (without mutating the state) the
occupied frame whose descriptor has the minimum `last_access`, and when
several occupied frames share that minimum it returns the one with the
lowest frame index. -/
theorem C7_lru_select (s : SimState) (j : Nat) (c0 : FrameContent)
    (halgo : s.replacement_algo = "LRU")
    (hocc : s.ram.getD j none = some c0) :
    ∃ i ci, selectVictimFrame s = .ok (some i, s) ∧
      s.ram.getD i none = some ci ∧
      (∀ k c, s.ram.getD k none = some c → ci.last_access ≤ c.last_access) ∧
      (∀ k c, s.ram.getD k none = some c → c.last_access = ci.last_access →
        i ≤ k) := by
  obtain ⟨ri, rt, heq, hmin, hprov, hties⟩ :=
    lruLoop_none_spec s.ram 0 ⟨j, c0, hocc⟩
  obtain ⟨k, c, hk, hik, hrt⟩ := hprov
  refine ⟨ri, c, ?_, ?_, ?_, ?_⟩
  · unfold selectVictimFrame
    rw [if_neg (by rw [halgo]; decide), if_pos halgo]
    unfold lruSelect
    rw [heq]
    rfl
  · rw [hik]; simpa using hk
  · intro k2 c2 hk2
    have := hmin k2 c2 hk2
    omega
  · intro k2 c2 hk2 hc2
    have := hties k2 c2 hk2 (by omega)
    omega

/-- Witness for claim C7: at the concrete LRU state with two occupied
frames sharing `last_access = 0`, selection must return frame 0. -/
theorem C7_lru_select_witness :
    ∃ i ci, selectVictimFrame c7state = .ok (some i, c7state) ∧
      c7state.ram.getD i none = some ci ∧
      (∀ k c, c7state.ram.getD k none = some c →
        ci.last_access ≤ c.last_access) ∧
      (∀ k c, c7state.ram.getD k none = some c →
        c.last_access = ci.last_access → i ≤ k) :=
  C7_lru_select c7state 0 ⟨1, 0, 0, 0, true⟩ (by decide) (by decide)


theorem updatePcb_ticks (s : SimState) (pid : Nat) (f : PCB → PCB) :
    (updatePcb s pid f).ticks = s.ticks :=
  congrArg Prod.fst (updatePcb_clocks s pid f)

theorem updatePcb_access (s : SimState) (pid : Nat) (f : PCB → PCB) :
    (updatePcb s pid f).access_clock = s.access_clock :=
  congrArg Prod.snd (updatePcb_clocks s pid f)

theorem placePage_clocks (s : SimState) (pid pagina fr : Nat) :
    (placePageInFrame s pid pagina fr).ticks = s.ticks ∧
    (placePageInFrame s pid pagina fr).access_clock = s.access_clock := by
  unfold placePageInFrame SimState.pushLog
  dsimp only
  repeat' split
  all_goals simp [updatePcb_ticks, updatePcb_access]

theorem swapOut_clocks (s : SimState) (fr : Nat) :
    (swapOutFrame s fr).ticks = s.ticks ∧
    (swapOutFrame s fr).access_clock = s.access_clock := by
  unfold swapOutFrame SimState.pushLog
  dsimp only
  repeat' split
  all_goals simp [updatePcb_ticks, updatePcb_access]

theorem select_clocks_ok (s : SimState) (r : Option Nat) (s1 : SimState)
    (h : selectVictimFrame s = .ok (r, s1)) :
    s1.ticks = s.ticks ∧ s1.access_clock = s.access_clock := by
  unfold selectVictimFrame at h
  (try dsimp only at h)
  repeat' split at h
  all_goals first
  | (simp only [Except.ok.injEq, Prod.mk.injEq] at h
     obtain ⟨h1, h2⟩ := h
     subst h2
     exact ⟨rfl, rfl⟩)
  | simp at h

theorem select_clocks_err (s : SimState) (e : SimState)
    (h : selectVictimFrame s = .error e) :
    e.ticks = s.ticks ∧ e.access_clock = s.access_clock := by
  unfold selectVictimFrame at h
  (try dsimp only at h)
  repeat' split at h
  all_goals first
  | (simp only [Except.error.injEq] at h
     subst h
     exact ⟨rfl, rfl⟩)
  | simp at h

theorem swapInContinue_clocks (s : SimState) (pid page slot fr : Nat) :
    (swapInContinue s pid page slot fr).2.ticks = s.ticks ∧
    (swapInContinue s pid page slot fr).2.access_clock = s.access_clock := by
  unfold swapInContinue SimState.pushLog
  dsimp only
  repeat' split
  all_goals simp [updatePcb_ticks, updatePcb_access]

theorem terminarRelease_clocks :
    ∀ (entries : List PTE) (s : SimState),
      (terminarRelease s entries).ticks = s.ticks ∧
      (terminarRelease s entries).access_clock = s.access_clock := by
  intro entries
  induction entries with
  | nil => intro s; exact ⟨rfl, rfl⟩
  | cons e rest ih =>
    intro s
    simp only [terminarRelease]
    constructor
    · rw [(ih _).1]
      repeat' split
      all_goals rfl
    · rw [(ih _).2]
      repeat' split
      all_goals rfl

theorem terminar_clocks (s : SimState) (pcb : PCB) (motivo : String) :
    (terminarProceso s pcb motivo).ticks = s.ticks ∧
    (terminarProceso s pcb motivo).access_clock = s.access_clock := by
  unfold terminarProceso SimState.pushLog
  dsimp only
  obtain ⟨h1, h2⟩ := terminarRelease_clocks pcb.tabla_paginas s
  repeat' split
  all_goals simp_all

theorem planificar_clocks (s : SimState) :
    (planificar s).ticks = s.ticks ∧ (planificar s).access_clock = s.access_clock := by
  unfold planificar SimState.pushLog
  dsimp only
  repeat' split
  all_goals exact ⟨rfl, rfl⟩

theorem suspenderReady_clocks (s : SimState) (pid : Nat) :
    (suspenderReady s pid).ticks = s.ticks ∧
    (suspenderReady s pid).access_clock = s.access_clock := by
  unfold suspenderReady SimState.pushLog
  dsimp only
  repeat' split
  all_goals exact ⟨rfl, rfl⟩

theorem suspender_clocks (s : SimState) (pid : Nat) :
    (suspenderProceso s pid).ticks = s.ticks ∧
    (suspenderProceso s pid).access_clock = s.access_clock := by
  unfold suspenderProceso SimState.pushLog
  dsimp only
  repeat' split
  all_goals first
  | exact ⟨rfl, rfl⟩
  | exact suspenderReady_clocks s pid

theorem reanudar_clocks (s : SimState) (pid : Nat) :
    (reanudarProceso s pid).ticks = s.ticks ∧
    (reanudarProceso s pid).access_clock = s.access_clock := by
  unfold reanudarProceso SimState.pushLog
  dsimp only
  repeat' split
  all_goals exact ⟨rfl, rfl⟩

theorem forzar_clocks (s : SimState) (pid : Nat) :
    (forzarTerminacion s pid).ticks = s.ticks ∧
    (forzarTerminacion s pid).access_clock = s.access_clock := by
  unfold forzarTerminacion SimState.pushLog
  dsimp only
  repeat' split
  all_goals first
  | exact ⟨rfl, rfl⟩
  | exact terminar_clocks _ _ _
  | simp [terminar_clocks]


theorem allocOne_clocks (s : SimState) (pid pg : Nat)
    (r : Except SimState SimState) (h : allocOnePage s pid pg = r) :
    (exOut r).ticks = s.ticks ∧ (exOut r).access_clock = s.access_clock := by
  unfold allocOnePage at h
  cases hff : s.free_frames with
  | cons f rest =>
    simp only [hff] at h
    subst h
    have := placePage_clocks { s with free_frames := rest } pid pg f
    simpa [exOut] using this
  | nil =>
    simp only [hff] at h
    cases hsel : selectVictimFrame s with
    | error e =>
      simp only [hsel] at h
      subst h
      have := select_clocks_err s e hsel
      simpa [exOut] using this
    | ok rs =>
      obtain ⟨ropt, sA⟩ := rs
      have hA := select_clocks_ok s ropt sA hsel
      cases ropt with
      | none =>
        simp only [hsel] at h
        (try dsimp only at h)
        cases hfs : sA.free_swap_slots with
        | cons slot restS =>
          simp only [hfs] at h
          subst h
          dsimp only [exOut]
          constructor
          · simp [updatePcb_ticks, SimState.pushLog]
            exact hA.1
          · simp [updatePcb_access, SimState.pushLog]
            exact hA.2
        | nil =>
          simp only [hfs] at h
          subst h
          dsimp only [exOut]
          constructor
          · simpa [SimState.pushLog] using hA.1
          · simpa [SimState.pushLog] using hA.2
      | some victim =>
        simp only [hsel] at h
        (try dsimp only at h)
        subst h
        dsimp only [exOut]
        have hso := swapOut_clocks sA victim
        have hpp := placePage_clocks (swapOutFrame sA victim) pid pg victim
        constructor <;> omega

theorem allocAux_clocks (pid : Nat) :
    ∀ (pgs : List Nat) (s : SimState) (r : Except SimState SimState),
      allocPagesAux pid s pgs = r →
      (exOut r).ticks = s.ticks ∧ (exOut r).access_clock = s.access_clock := by
  intro pgs
  induction pgs with
  | nil =>
    intro s r h
    unfold allocPagesAux at h
    subst h
    exact ⟨rfl, rfl⟩
  | cons pg rest ih =>
    intro s r h
    unfold allocPagesAux at h
    cases hone : allocOnePage s pid pg with
    | error e =>
      simp only [hone] at h
      subst h
      have := allocOne_clocks s pid pg (.error e) hone
      simpa [exOut] using this
    | ok s2 =>
      simp only [hone] at h
      have h2 := ih s2 r h
      have h1 := allocOne_clocks s pid pg (.ok s2) hone
      dsimp only [exOut] at h1
      constructor <;> omega

theorem crear_clocks (s : SimState) (nombre : String) (tam prio instr : Nat)
    (r : Except SimState SimState) (h : crearProceso s nombre tam prio instr = r) :
    (exOut r).ticks = s.ticks ∧ (exOut r).access_clock = s.access_clock := by
  unfold crearProceso at h
  (try dsimp only at h)
  have := allocAux_clocks s.contador_pid
    (List.range ((tam + s.page_kb - 1) / s.page_kb)) _ r h
  simpa [SimState.pushLog] using this

theorem accessPageTable_clocks (s1 : SimState) (pid page : Nat)
    (r : Except SimState (Bool × SimState)) (h : accessPageTable s1 pid page = r) :
    (exOutA r).ticks = s1.ticks ∧ (exOutA r).access_clock = s1.access_clock := by
  unfold accessPageTable at h
  cases hent : (findPcb s1 pid).bind (fun p => p.tabla_paginas[page]?) with
  | none =>
    simp only [hent] at h
    subst h
    exact ⟨rfl, rfl⟩
  | some entry =>
    simp only [hent] at h
    cases hp : entry.present with
    | true =>
      simp only [hp, if_true] at h
      subst h
      dsimp only [exOutA]
      repeat' split
      all_goals simp [updatePcb_ticks, updatePcb_access]
    | false =>
      simp only [hp, Bool.false_eq_true, if_false] at h
      (try dsimp only at h)
      generalize hs3 : SimState.pushLog { s1 with total_fallos := s1.total_fallos + 1 } (.falloPagina pid page) = s3 at h
      have h3t : s3.ticks = s1.ticks := by subst hs3; rfl
      have h3a : s3.access_clock = s1.access_clock := by subst hs3; rfl
      cases hss : entry.swap_slot with
      | some slot =>
        simp only [hss] at h
        cases hff : s3.free_frames with
        | cons fr rest =>
          simp only [hff] at h
          subst h
          dsimp only [exOutA]
          have := swapInContinue_clocks { s3 with free_frames := rest } pid page slot fr
          simp only at this
          constructor <;> omega
        | nil =>
          simp only [hff] at h
          cases hsel : selectVictimFrame s3 with
          | error e =>
            simp only [hsel] at h
            subst h
            have := select_clocks_err s3 e hsel
            dsimp only [exOutA]
            constructor <;> omega
          | ok rs =>
            obtain ⟨ropt, s4⟩ := rs
            have h4 := select_clocks_ok s3 ropt s4 hsel
            cases ropt with
            | none =>
              simp only [hsel] at h
              subst h
              dsimp only [exOutA]
              constructor <;> simp [SimState.pushLog] <;> omega
            | some victim =>
              simp only [hsel] at h
              (try dsimp only at h)
              have h5 := swapOut_clocks s4 victim
              cases hff5 : (swapOutFrame s4 victim).free_frames with
              | cons fr rest =>
                simp only [hff5] at h
                subst h
                dsimp only [exOutA]
                have h6 := swapInContinue_clocks
                  { swapOutFrame s4 victim with free_frames := rest } pid page slot fr
                simp only at h6
                constructor <;> omega
              | nil =>
                simp only [hff5] at h
                subst h
                dsimp only [exOutA]
                have h6 := swapInContinue_clocks (swapOutFrame s4 victim)
                  pid page slot victim
                constructor <;> omega
      | none =>
        simp only [hss] at h
        cases hff : s3.free_frames with
        | cons fr rest =>
          simp only [hff] at h
          subst h
          dsimp only [exOutA]
          have := placePage_clocks { s3 with free_frames := rest } pid page fr
          simp only at this
          constructor <;> omega
        | nil =>
          simp only [hff] at h
          cases hsel : selectVictimFrame s3 with
          | error e =>
            simp only [hsel] at h
            subst h
            have := select_clocks_err s3 e hsel
            dsimp only [exOutA]
            constructor <;> omega
          | ok rs =>
            obtain ⟨ropt, s4⟩ := rs
            have h4 := select_clocks_ok s3 ropt s4 hsel
            cases ropt with
            | none =>
              simp only [hsel] at h
              subst h
              dsimp only [exOutA]
              constructor <;> simp [SimState.pushLog] <;> omega
            | some victim =>
              simp only [hsel] at h
              (try dsimp only at h)
              subst h
              dsimp only [exOutA]
              have h5 := swapOut_clocks s4 victim
              have h6 := placePage_clocks (swapOutFrame s4 victim) pid page victim
              constructor <;> omega

theorem accessPage_clocks (s : SimState) (pid page : Nat)
    (r : Except SimState (Bool × SimState)) (h : accessPage s pid page = r) :
    (exOutA r).ticks = s.ticks + 1 ∧
    (exOutA r).access_clock = s.access_clock + 1 := by
  unfold accessPage at h
  (try dsimp only at h)
  cases hbe : s.tlb_enabled with
  | false =>
    simp only [hbe, Bool.false_eq_true, if_false] at h
    have := accessPageTable_clocks _ pid page r h
    simpa using this
  | true =>
    simp only [hbe, if_true] at h
    cases htl : tlbLookup s.tlb pid page with
    | none =>
      simp only [htl] at h
      have := accessPageTable_clocks _ pid page r h
      simpa using this
    | some pr =>
      obtain ⟨v, tlb1⟩ := pr
      simp only [htl] at h
      cases v with
      | some frame =>
        (try dsimp only at h)
        subst h
        dsimp only [exOutA]
        constructor
        · simp [updatePcb_ticks]
        · simp [updatePcb_access]
      | none =>
        have := accessPageTable_clocks _ pid page r h
        simpa using this

theorem cicloRest_sync (s1 : SimState) (o : RandOracle)
    (r : Except SimState SimState) (h : cicloRest s1 o = r)
    (hinv : s1.ticks = s1.access_clock) :
    (exOut r).ticks = (exOut r).access_clock := by
  unfold cicloRest at h
  (try dsimp only at h)
  cases hni : s1.proceso_actual.isNone with
  | false =>
    simp only [hni, Bool.false_eq_true, if_false] at h
    cases hpa : s1.proceso_actual with
    | none => simp [Option.isNone] at hni; simp [hpa] at hni
    | some p =>
      simp only [hpa] at h
      by_cases hz : p.paginas = 0
      · simp only [hz, if_pos rfl] at h
        subst h
        have ht := terminar_clocks s1 p "Sin páginas"
        simp [exOut]
        omega
      · rw [if_neg hz] at h
        cases hacc : accessPage s1 p.pid o.page_choice with
        | error e =>
          simp only [hacc] at h
          subst h
          have := accessPage_clocks s1 p.pid o.page_choice (.error e) hacc
          simp only [exOutA] at this
          simp [exOut]
          omega
        | ok pr =>
          obtain ⟨b, s3⟩ := pr
          simp only [hacc] at h
          have h3 := accessPage_clocks s1 p.pid o.page_choice (.ok (b, s3)) hacc
          simp only [exOutA] at h3
          cases hpa3 : s3.proceso_actual with
          | none =>
            simp only [hpa3] at h
            subst h
            simp [exOut]
            omega
          | some p2 =>
            simp only [hpa3] at h
            (try dsimp only at h)
            split at h
            · subst h
              have ht := terminar_clocks { s3 with proceso_actual := some { p2 with instrucciones_restantes := p2.instrucciones_restantes - 1 } } { p2 with instrucciones_restantes := p2.instrucciones_restantes - 1 } "Finalización Normal"
              simp only at ht
              simp [exOut]
              omega
            · subst h
              simp [exOut]
              omega
  | true =>
    simp only [hni, if_true] at h
    have hpl := planificar_clocks s1
    cases hpa : (planificar s1).proceso_actual with
    | none =>
      simp only [hpa] at h
      subst h
      simp [exOut]
      omega
    | some p =>
      simp only [hpa] at h
      by_cases hz : p.paginas = 0
      · simp only [hz, if_pos rfl] at h
        subst h
        have ht := terminar_clocks (planificar s1) p "Sin páginas"
        simp [exOut]
        omega
      · rw [if_neg hz] at h
        cases hacc : accessPage (planificar s1) p.pid o.page_choice with
        | error e =>
          simp only [hacc] at h
          subst h
          have := accessPage_clocks (planificar s1) p.pid o.page_choice (.error e) hacc
          simp only [exOutA] at this
          simp [exOut]
          omega
        | ok pr =>
          obtain ⟨b, s3⟩ := pr
          simp only [hacc] at h
          have h3 := accessPage_clocks (planificar s1) p.pid o.page_choice
            (.ok (b, s3)) hacc
          simp only [exOutA] at h3
          cases hpa3 : s3.proceso_actual with
          | none =>
            simp only [hpa3] at h
            subst h
            simp [exOut]
            omega
          | some p2 =>
            simp only [hpa3] at h
            (try dsimp only at h)
            split at h
            · subst h
              have ht := terminar_clocks { s3 with proceso_actual := some { p2 with instrucciones_restantes := p2.instrucciones_restantes - 1 } } { p2 with instrucciones_restantes := p2.instrucciones_restantes - 1 } "Finalización Normal"
              simp only at ht
              simp [exOut]
              omega
            · subst h
              simp [exOut]
              omega

theorem ejecutarCiclo_sync (s : SimState) (o : RandOracle)
    (r : Except SimState SimState) (h : ejecutarCiclo s o = r)
    (hinv : s.ticks = s.access_clock) :
    (exOut r).ticks = (exOut r).access_clock := by
  unfold ejecutarCiclo at h
  (try dsimp only at h)
  cases harr : o.arrival with
  | false =>
    simp only [harr, Bool.false_eq_true, if_false] at h
    exact cicloRest_sync _ o r h (by simp [hinv])
  | true =>
    simp only [harr, if_true] at h
    cases hc : crearProceso { s with ticks := s.ticks + 1, access_clock := s.access_clock + 1 } "Prand" o.tam o.prio o.instr with
    | error e =>
      simp only [hc] at h
      subst h
      have := crear_clocks _ "Prand" o.tam o.prio o.instr (.error e) hc
      simp only [exOut] at this
      simp [exOut]
      omega
    | ok s1 =>
      simp only [hc] at h
      have h1 := crear_clocks _ "Prand" o.tam o.prio o.instr (.ok s1) hc
      simp only [exOut] at h1
      exact cicloRest_sync s1 o r h (by omega)

/-- Claim C10: in every reachable state the tick counter equals the
access clock.  Both start at 0; a page access advances both by one; a
scheduling cycle advances both by one and then possibly both by one
more through the access it performs; no other operation touches either
counter.  The invariant also holds for the partial state carried out of
the one possible internal exception (the CLOCK division by zero). -/
theorem C10_ticks_eq_access_clock (s : SimState) (h : Reachable s) :
    s.ticks = s.access_clock := by
  induction h with
  | init ram_kb swap_kb page_kb algo tlb_enabled tlb_size => rfl
  | crear s nombre tam prio instr hr ih =>
    exact ((crear_clocks s nombre tam prio instr _ rfl).1).trans
      (ih.trans (crear_clocks s nombre tam prio instr _ rfl).2.symm)
  | ciclo s o hr ih => exact ejecutarCiclo_sync s o _ rfl ih
  | acc s pid page hr ih =>
    have := accessPage_clocks s pid page _ rfl
    omega
  | susp s pid hr ih =>
    have := suspender_clocks s pid
    omega
  | rean s pid hr ih =>
    have := reanudar_clocks s pid
    omega
  | forz s pid hr ih =>
    have := forzar_clocks s pid
    omega

/-- Witness for claim C10 at a concrete reachable state: the state of
the C1 scenario after one admission and one access. -/
theorem C10_ticks_eq_access_clock_witness :
    c1after.ticks = c1after.access_clock :=
  C10_ticks_eq_access_clock c1after
    (Reachable.acc c1admitted 1 0
      (Reachable.crear c1base "P1" 768 1 10
        (Reachable.init 256 256 256 "FIFO" false 4)))


theorem listModify_cons_succ {α : Type _} (x : α) (l : List α) (n : Nat) (f : α → α) :
    listModify (x :: l) (n + 1) f = x :: listModify l n f := by
  simp only [listModify, List.getElem?_cons_succ]
  cases l[n]? <;> simp [List.set]

theorem listModify_append_cons {α : Type _} :
    ∀ (done : List α) (t : α) (rest : List α) (f : α → α),
      listModify (done ++ t :: rest) done.length f = done ++ f t :: rest := by
  intro done
  induction done with
  | nil => intro t rest f; simp [listModify]
  | cons d ds ih =>
    intro t rest f
    simp only [List.cons_append, List.length_cons, listModify_cons_succ]
    rw [ih]

theorem listGetD_set_self {α : Type _} :
    ∀ (l : List α) (i : Nat) (a d : α), i < l.length → (l.set i a).getD i d = a := by
  intro l
  induction l with
  | nil => intro i a d h; simp at h
  | cons x xs ih =>
    intro i a d h
    cases i with
    | zero => simp [List.set]
    | succ n =>
      simp only [List.set, List.getD_cons_succ]
      exact ih n a d (by simpa using h)

theorem listGetD_set_ne {α : Type _} :
    ∀ (l : List α) (i j : Nat) (a d : α), i ≠ j →
      (l.set i a).getD j d = l.getD j d := by
  intro l
  induction l with
  | nil => intro i j a d h; simp [List.set]
  | cons x xs ih =>
    intro i j a d h
    cases i with
    | zero =>
      cases j with
      | zero => exact absurd rfl h
      | succ m => simp [List.set]
    | succ n =>
      cases j with
      | zero => simp [List.set]
      | succ m =>
        simp only [List.set, List.getD_cons_succ]
        exact ih n m a d (by omega)

theorem listGetD_mem {α : Type _} :
    ∀ (l : List α) (i : Nat) (d : α), i < l.length → l.getD i d ∈ l := by
  intro l
  induction l with
  | nil => intro i d h; simp at h
  | cons x xs ih =>
    intro i d h
    cases i with
    | zero => simp
    | succ n =>
      simp only [List.getD_cons_succ]
      exact List.mem_cons_of_mem x (ih n d (by simpa using h))

theorem nodup_getD_ne {α : Type _} :
    ∀ (l : List α) (d : α), l.Nodup →
      ∀ m m2, m < l.length → m2 < l.length → m ≠ m2 →
        l.getD m d ≠ l.getD m2 d := by
  intro l
  induction l with
  | nil => intro d h m m2 hm hm2 hne; simp at hm
  | cons x xs ih =>
    intro d h m m2 hm hm2 hne
    obtain ⟨hx, hxs⟩ := List.nodup_cons.mp h
    cases m with
    | zero =>
      cases m2 with
      | zero => exact absurd rfl hne
      | succ n2 =>
        simp only [List.getD_cons_zero, List.getD_cons_succ]
        intro heq
        exact hx (heq ▸ listGetD_mem xs n2 d (by simpa using hm2))
    | succ n =>
      cases m2 with
      | zero =>
        simp only [List.getD_cons_zero, List.getD_cons_succ]
        intro heq
        exact hx (heq ▸ listGetD_mem xs n d (by simpa using hm))
      | succ n2 =>
        simp only [List.getD_cons_succ]
        exact ih d hxs n n2 (by simpa using hm) (by simpa using hm2) (by omega)

theorem updateFirst_append (pid : Nat) (f : PCB → PCB) :
    ∀ (l1 : List PCB) (pcb : PCB) (l2 : List PCB),
      (∀ q ∈ l1, q.pid ≠ pid) → pcb.pid = pid →
      updateFirst pid f (l1 ++ pcb :: l2) = (l1 ++ f pcb :: l2, true) := by
  intro l1
  induction l1 with
  | nil =>
    intro pcb l2 h1 hp
    simp [updateFirst, hp]
  | cons q qs ih =>
    intro pcb l2 h1 hp
    have hq : q.pid ≠ pid := h1 q (by simp)
    have h2 := ih pcb l2 (fun r hr => h1 r (by simp [hr])) hp
    simp only [List.cons_append, updateFirst, if_neg hq]
    rw [show qs.append (pcb :: l2) = qs ++ pcb :: l2 from rfl, h2]

theorem updatePcb_shape (s : SimState) (pid : Nat) (f : PCB → PCB)
    (l1 l2 : List PCB) (pcb : PCB)
    (hact : ∀ q ∈ s.proceso_actual.toList, q.pid ≠ pid)
    (hl : s.cola_listos = l1 ++ pcb :: l2)
    (hl1 : ∀ q ∈ l1, q.pid ≠ pid) (hpid : pcb.pid = pid) :
    updatePcb s pid f = { s with cola_listos := l1 ++ f pcb :: l2 } := by
  unfold updatePcb updatePcbQueues
  have hfind : updateFirst pid f s.cola_listos = (l1 ++ f pcb :: l2, true) := by
    rw [hl]; exact updateFirst_append pid f l1 pcb l2 hl1 hpid
  cases hpa : s.proceso_actual with
  | none =>
    dsimp only
    rw [hfind]
  | some q =>
    have hqq : q.pid ≠ pid := hact q (by simp [hpa])
    dsimp only
    rw [if_neg hqq, hfind]

theorem placePage_shape (s : SimState) (pid : Nat) (l1 l2 : List PCB) (pcb : PCB)
    (pg fr : Nat)
    (hact : ∀ q ∈ s.proceso_actual.toList, q.pid ≠ pid)
    (hl : s.cola_listos = l1 ++ pcb :: l2)
    (hl1 : ∀ q ∈ l1, q.pid ≠ pid) (hpid : pcb.pid = pid) :
    placePageInFrame s pid pg fr = { s with
      ram := s.ram.set fr (some ⟨pid, pg, s.ticks, s.ticks, true⟩),
      cola_listos := l1 ++ ptSet pcb pg (fun _ => ⟨true, some fr, none, s.ticks⟩) :: l2,
      fifo_queue := if s.replacement_algo = "FIFO" then s.fifo_queue ++ [fr]
                    else s.fifo_queue,
      log_events := s.log_events ++ [(s.ticks, .cargadaPagina pid pg fr)] } := by
  unfold placePageInFrame
  dsimp only
  rw [updatePcb_shape { s with ram := s.ram.set fr (some ⟨pid, pg, s.ticks, s.ticks, true⟩) } pid _ l1 l2 pcb hact hl hl1 hpid]
  dsimp only [SimState.pushLog]
  split
  next hc => rfl
  next hc => rfl


theorem alloc_count (k : Nat) :
    ∀ (j : Nat) (s : SimState) (pid : Nat) (l1 l2 : List PCB) (pcb : PCB)
      (done todo : List PTE),
      s.cola_listos = l1 ++ pcb :: l2 →
      pcb.pid = pid →
      (∀ q ∈ l1, q.pid ≠ pid) →
      (∀ q ∈ s.proceso_actual.toList, q.pid ≠ pid) →
      pcb.tabla_paginas = done ++ todo →
      done.length = j →
      k ≤ todo.length →
      k ≤ s.free_frames.length →
      s.free_frames.Nodup →
      (∀ f ∈ s.free_frames, f < s.ram.length) →
      ∃ s2 pcb2,
        allocPagesAux pid s (List.range' j k) = .ok s2 ∧
        s2.cola_listos = l1 ++ pcb2 :: l2 ∧
        pcb2.pid = pid ∧
        pcb2.tabla_paginas = done ++
          (List.range k).map (fun m =>
            (⟨true, some (s.free_frames.getD m 0), none, s.ticks⟩ : PTE)) ++
          todo.drop k ∧
        s2.free_frames = s.free_frames.drop k ∧
        s2.free_swap_slots = s.free_swap_slots ∧
        s2.swap = s.swap ∧
        s2.num_marcos_ram = s.num_marcos_ram ∧
        s2.num_marcos_swap = s.num_marcos_swap ∧
        s2.ram.length = s.ram.length ∧
        s2.proceso_actual = s.proceso_actual ∧
        s2.cola_bloqueados = s.cola_bloqueados ∧
        s2.procesos_terminados = s.procesos_terminados ∧
        s2.ticks = s.ticks ∧
        (∀ m, m < k → (s2.ram.getD (s.free_frames.getD m 0) none).isSome) ∧
        (∀ t, (∀ m, m < k → t ≠ s.free_frames.getD m 0) →
          s2.ram.getD t none = s.ram.getD t none) := by
  induction k with
  | zero =>
    intro j s pid l1 l2 pcb done todo hl hpid hl1 hact hpt hdone hk1 hk2 hnd hrange
    refine ⟨s, pcb, rfl, hl, hpid, ?_, by simp, rfl, rfl, rfl, rfl, rfl, rfl, rfl, rfl, rfl,
      ?_, ?_⟩
    · simpa using hpt
    · intro m hm; omega
    · intro t ht; rfl
  | succ k2 ih =>
    intro j s pid l1 l2 pcb done todo hl hpid hl1 hact hpt hdone hk1 hk2 hnd hrange
    obtain ⟨f0, ffrest, hff⟩ : ∃ f0 ffrest, s.free_frames = f0 :: ffrest := by
      cases hq : s.free_frames with
      | nil => rw [hq] at hk2; simp at hk2
      | cons a b => exact ⟨a, b, rfl⟩
    cases todo with
    | nil => simp at hk1
    | cons t0 trest =>
    -- the single allocation step takes the free-frame branch
    have hplace : allocOnePage s pid j =
        .ok (placePageInFrame { s with free_frames := ffrest } pid j f0) := by
      unfold allocOnePage
      rw [hff]
    have hshape := placePage_shape { s with free_frames := ffrest } pid l1 l2 pcb j f0
      hact hl hl1 hpid
    rw [hshape] at hplace
    -- the updated PCB after this placement
    have hpt1 : (ptSet pcb j (fun _ =>
        (⟨true, some f0, none, ({ s with free_frames := ffrest } : SimState).ticks⟩ : PTE))).tabla_paginas
        = (done ++ [(⟨true, some f0, none, s.ticks⟩ : PTE)]) ++ trest := by
      dsimp only [ptSet]
      rw [hpt, ← hdone, listModify_append_cons]
      simp
    have hfr0 : f0 < s.ram.length := hrange f0 (by rw [hff]; simp)
    obtain ⟨s2, pcb2, heq2, hcl2, hpid2, hpt2, hffr2, hfs2, hsw2, hn1, hn2, hrl2, hpa2,
        hcb2, hte2, htk2, hram2, hpres2⟩ :=
      ih (j + 1)
        { s with free_frames := ffrest,
                 ram := s.ram.set f0 (some ⟨pid, j, s.ticks, s.ticks, true⟩),
                 cola_listos := l1 ++ ptSet pcb j (fun _ => ⟨true, some f0, none, s.ticks⟩) :: l2,
                 fifo_queue := if s.replacement_algo = "FIFO" then s.fifo_queue ++ [f0]
                               else s.fifo_queue,
                 log_events := s.log_events ++ [(s.ticks, .cargadaPagina pid j f0)] }
        pid l1 l2 (ptSet pcb j (fun _ => ⟨true, some f0, none, s.ticks⟩))
        (done ++ [(⟨true, some f0, none, s.ticks⟩ : PTE)]) trest
        rfl hpid hl1 hact hpt1 (by simp [hdone]) (by simpa using hk1)
        (by rw [hff] at hk2; simpa using hk2)
        (by rw [hff] at hnd; exact (List.nodup_cons.mp hnd).2)
        (by intro f hf; rw [List.length_set]; exact hrange f (by rw [hff]; simp [hf]))
    refine ⟨s2, pcb2, ?_, hcl2, hpid2, ?_, ?_, hfs2, hsw2, hn1, hn2, ?_, hpa2, hcb2,
      hte2, htk2, ?_, ?_⟩
    · rw [List.range'_succ]
      unfold allocPagesAux
      rw [hplace]
      exact heq2
    · -- page-table characterization
      rw [hpt2, hff]
      simp only [List.range_succ_eq_map, List.map_cons, List.map_map, Function.comp,
        List.getD_cons_zero, List.getD_cons_succ, List.drop_succ_cons]
      simp [List.append_assoc]
    · rw [hffr2, hff, List.drop_succ_cons]
    · rw [hrl2, List.length_set]
    · -- occupancy of the used frames
      intro m hm
      rw [hff]
      cases m with
      | zero =>
        simp only [List.getD_cons_zero]
        have hn0 : f0 ∉ ffrest := by rw [hff] at hnd; exact (List.nodup_cons.mp hnd).1
        rw [hpres2 f0 ?_]
        · simp only []
          rw [listGetD_set_self s.ram f0 _ _ hfr0]
          simp
        · intro m2 hm2 heqf
          exact hn0 (heqf ▸ listGetD_mem ffrest m2 0 (by
            rw [hff] at hk2; simp at hk2; omega))
      | succ m2 =>
        simp only [List.getD_cons_succ]
        exact hram2 m2 (by omega)
    · -- frames outside the used prefix are untouched
      intro t ht
      rw [hff] at ht
      have ht0 : t ≠ f0 := by
        have := ht 0 (by omega)
        simpa using this
      have htr : ∀ m, m < k2 → t ≠ ffrest.getD m 0 := by
        intro m hm
        have := ht (m + 1) (by omega)
        simpa using this
      rw [hpres2 t htr]
      simp only []
      rw [listGetD_set_ne s.ram f0 t _ _ (by omega)]


theorem terminarRelease_count :
    ∀ (entries : List PTE) (s : SimState),
      (∀ e ∈ entries, e.swap_slot = none ∧ e.present = true ∧
        ∃ fr, e.frame = some fr ∧ fr < s.num_marcos_ram ∧
          (s.ram.getD fr none).isSome) →
      (entries.map PTE.frame).Nodup →
      (terminarRelease s entries).free_frames.length =
        s.free_frames.length + entries.length ∧
      (terminarRelease s entries).free_swap_slots = s.free_swap_slots := by
  intro entries
  induction entries with
  | nil => intro s h hnd; exact ⟨by simp [terminarRelease], rfl⟩
  | cons e rest ih =>
    intro s h hnd
    obtain ⟨hs0, hp0, fr, hfr, hlt, hocc⟩ := h e (by simp)
    have hbody : terminarRelease s (e :: rest) =
        terminarRelease { s with ram := s.ram.set fr none,
                                 free_frames := s.free_frames ++ [fr],
                                 fifo_queue := s.fifo_queue.erase fr } rest := by
      simp only [terminarRelease, hp0, if_true, hfr, hs0]
      rw [if_pos ⟨hlt, hocc⟩]
    rw [hbody]
    have hpair : (∀ x ∈ rest, ¬ x.frame = some fr) ∧ (rest.map PTE.frame).Nodup := by
      simpa [hfr] using hnd
    obtain ⟨hc1, hc2⟩ := ih
      { s with ram := s.ram.set fr none,
               free_frames := s.free_frames ++ [fr],
               fifo_queue := s.fifo_queue.erase fr }
      (by
        intro e2 he2
        obtain ⟨ha, hb, fr2, hfr2, hlt2, hocc2⟩ := h e2 (by simp [he2])
        refine ⟨ha, hb, fr2, hfr2, hlt2, ?_⟩
        have hne : fr2 ≠ fr := by
          intro hcon
          exact hpair.1 e2 he2 (by rw [hfr2, hcon])
        simp only []
        rw [listGetD_set_ne s.ram fr fr2 _ _ (by omega)]
        exact hocc2)
      hpair.2
    refine ⟨?_, by simpa using hc2⟩
    rw [hc1]
    dsimp only
    simp only [List.length_append, List.length_cons, List.length_nil]
    omega

theorem find_append_pid (pid : Nat) :
    ∀ (l1 : List PCB) (pcb : PCB) (l2 : List PCB),
      (∀ q ∈ l1, q.pid ≠ pid) → pcb.pid = pid →
      (l1 ++ pcb :: l2).find? (fun p => p.pid == pid) = some pcb := by
  intro l1
  induction l1 with
  | nil =>
    intro pcb l2 h1 hp
    simp [List.find?, hp]
  | cons q qs ih =>
    intro pcb l2 h1 hp
    have hq : q.pid ≠ pid := h1 q (by simp)
    rw [List.cons_append, List.find?_cons_of_neg _ (by simpa using hq)]
    exact ih pcb l2 (fun r hr => h1 r (by simp [hr])) hp

theorem eraseP_append_pid (pid : Nat) :
    ∀ (l1 : List PCB) (pcb : PCB) (l2 : List PCB),
      (∀ q ∈ l1, q.pid ≠ pid) → pcb.pid = pid →
      (l1 ++ pcb :: l2).eraseP (fun p => p.pid == pid) = l1 ++ l2 := by
  intro l1
  induction l1 with
  | nil =>
    intro pcb l2 h1 hp
    simp only [List.nil_append]
    rw [List.eraseP_cons_of_pos (by simpa using hp)]
  | cons q qs ih =>
    intro pcb l2 h1 hp
    have hq : q.pid ≠ pid := h1 q (by simp)
    rw [List.cons_append, List.eraseP_cons_of_neg (by simpa using hq),
      ih pcb l2 (fun r hr => h1 r (by simp [hr])) hp, List.cons_append]

theorem terminar_free_counts (s : SimState) (p : PCB) (m : String) :
    (terminarProceso s p m).free_frames =
      (terminarRelease s p.tabla_paginas).free_frames ∧
    (terminarProceso s p m).free_swap_slots =
      (terminarRelease s p.tabla_paginas).free_swap_slots := by
  unfold terminarProceso SimState.pushLog
  dsimp only
  split
  · exact ⟨rfl, rfl⟩
  · exact ⟨rfl, rfl⟩


/-- Claim C6 (amended): admit-then-terminate restores the free-frame and
free-slot counts provided the admission evicts nothing — in particular
whenever the new process's page count fits into the free frames (and the
state is well-formed: duplicate-free in-range free-frame queue, fresh
pid).  The original unconditional claim fails when the admission evicts
a page of another process (see the counterexample). -/
theorem C6_amended (s : SimState) (nombre : String) (tam prio instr : Nat)
    (hP : (tam + s.page_kb - 1) / s.page_kb ≤ s.free_frames.length)
    (hnd : s.free_frames.Nodup)
    (hrange : ∀ f ∈ s.free_frames, f < s.ram.length)
    (hnum : s.num_marcos_ram = s.ram.length)
    (hfresh : PidAbsent s s.contador_pid) :
    ∃ s1, crearProceso s nombre tam prio instr = .ok s1 ∧
      (forzarTerminacion s1 s.contador_pid).free_frames.length =
        s.free_frames.length ∧
      (forzarTerminacion s1 s.contador_pid).free_swap_slots.length =
        s.free_swap_slots.length := by
  obtain ⟨hfl, hfb, hft, hfa⟩ := hfresh
  obtain ⟨s2, pcb2, heq2, hcl2, hpid2, hpt2, hffr2, hfs2, hsw2, hn1, hn2, hrl2,
      hpa2, hcb2, hte2, htk2, hram2, hpres2⟩ :=
    alloc_count ((tam + s.page_kb - 1) / s.page_kb) 0
      { s with contador_pid := s.contador_pid + 1,
               cola_listos := s.cola_listos ++
                 [⟨s.contador_pid, nombre, tam, prio, instr, (instr : Int), "LISTO",
                   (tam + s.page_kb - 1) / s.page_kb,
                   List.replicate ((tam + s.page_kb - 1) / s.page_kb) initPTE, ""⟩],
               log_events := s.log_events ++
                 [(s.ticks, .procesoCreado s.contador_pid)] }
      s.contador_pid s.cola_listos []
      ⟨s.contador_pid, nombre, tam, prio, instr, (instr : Int), "LISTO",
        (tam + s.page_kb - 1) / s.page_kb,
        List.replicate ((tam + s.page_kb - 1) / s.page_kb) initPTE, ""⟩
      [] (List.replicate ((tam + s.page_kb - 1) / s.page_kb) initPTE)
      (by simp) rfl hfl hfa (by simp) rfl (by simp) hP hnd hrange
  have hcrear : crearProceso s nombre tam prio instr = .ok s2 := by
    unfold crearProceso
    dsimp only
    rw [List.range_eq_range']
    exact heq2
  have hfind : s2.cola_listos.find? (fun p => p.pid == s.contador_pid) = some pcb2 := by
    rw [hcl2]
    exact find_append_pid s.contador_pid s.cola_listos pcb2 [] hfl hpid2
  have herase : s2.cola_listos.eraseP (fun q => q.pid == s.contador_pid) =
      s.cola_listos ++ [] := by
    rw [hcl2]
    exact eraseP_append_pid s.contador_pid s.cola_listos pcb2 [] hfl hpid2
  have hforz : forzarTerminacion s2 s.contador_pid =
      terminarProceso { s2 with cola_listos := s.cola_listos ++ [] } pcb2
        "Forzada por Usuario" := by
    unfold forzarTerminacion
    rw [hfind]
    dsimp only
    rw [herase]
  have hptlist : pcb2.tabla_paginas =
      (List.range ((tam + s.page_kb - 1) / s.page_kb)).map (fun m =>
        (⟨true, some (s.free_frames.getD m 0), none, s.ticks⟩ : PTE)) := by
    rw [hpt2, List.drop_eq_nil_of_le (by simp)]
    simp
  obtain ⟨htf, hts⟩ := terminar_free_counts
    { s2 with cola_listos := s.cola_listos ++ [] } pcb2 "Forzada por Usuario"
  obtain ⟨hrc1, hrc2⟩ := terminarRelease_count pcb2.tabla_paginas
    { s2 with cola_listos := s.cola_listos ++ [] }
    (by
      intro e he
      rw [hptlist] at he
      obtain ⟨m, hm, rfl⟩ := List.mem_map.mp he
      have hmP : m < (tam + s.page_kb - 1) / s.page_kb := List.mem_range.mp hm
      refine ⟨rfl, rfl, s.free_frames.getD m 0, rfl, ?_, ?_⟩
      · have hlt2 : s.free_frames.getD m 0 < s.ram.length :=
          hrange _ (listGetD_mem _ _ _ (by omega))
        show s.free_frames.getD m 0 < s2.num_marcos_ram
        rw [hn1]
        show s.free_frames.getD m 0 < s.num_marcos_ram
        rw [hnum]
        exact hlt2
      · exact hram2 m hmP)
    (by
      rw [hptlist, List.map_map]
      apply List.Nodup.map_on
      · intro x hx y hy hxy
        have hxP : x < (tam + s.page_kb - 1) / s.page_kb := List.mem_range.mp hx
        have hyP : y < (tam + s.page_kb - 1) / s.page_kb := List.mem_range.mp hy
        by_contra hne
        simp only [Function.comp] at hxy
        exact nodup_getD_ne s.free_frames 0 hnd x y (by omega) (by omega) hne
          (by simpa using hxy)
      · exact List.nodup_range _)
  refine ⟨s2, hcrear, ?_, ?_⟩
  · rw [hforz, htf, hrc1]
    show s2.free_frames.length + pcb2.tabla_paginas.length = s.free_frames.length
    rw [hffr2, hptlist]
    show (s.free_frames.drop ((tam + s.page_kb - 1) / s.page_kb)).length +
      ((List.range ((tam + s.page_kb - 1) / s.page_kb)).map (fun m =>
        (⟨true, some (s.free_frames.getD m 0), none, s.ticks⟩ : PTE))).length =
      s.free_frames.length
    simp only [List.length_drop, List.length_map, List.length_range]
    omega
  · rw [hforz, hts, hrc2]
    show s2.free_swap_slots.length = s.free_swap_slots.length
    rw [hfs2]

/-- Witness for the amended claim C6 on a fresh two-frame simulator and
a one-page process. -/
theorem C6_amended_witness :
    ∃ s1, crearProceso c6wit "W" 256 1 5 = .ok s1 ∧
      (forzarTerminacion s1 c6wit.contador_pid).free_frames.length =
        c6wit.free_frames.length ∧
      (forzarTerminacion s1 c6wit.contador_pid).free_swap_slots.length =
        c6wit.free_swap_slots.length :=
  C6_amended c6wit "W" 256 1 5 (by decide) (by decide) (by decide) (by decide)
    ⟨by decide, by decide, by decide, by decide⟩


end MemSim
